import Mathlib

/-!
Verification development for a shared, stake-based multiplayer bingo server.

The repository contains two implementations of the same domain rules:
* an in-memory, single-process WebSocket server
  (`src/gameState.ts`, `src/server.ts`, reset logic in `gameLogic.ts`),
  modelled below in namespace `MemServer`;
* a store-backed socket.io room manager (the `GameRoomManager` class),
  modelled below in namespace `StoreServer`.

JavaScript `Map`s are modelled as association lists with `Map.get`/`Map.set`/
`Map.delete` semantics (`aget`/`aset`/`adel`); insertion order is preserved and
`set` on an existing key overwrites in place, exactly as in JS. JS `Set`s of
strings are modelled as duplicate-free lists in insertion order. Timestamps
(`Date.now()`, `new Date()`) are abstract `Nat` parameters. `Math.random()`
draws are modelled by an oracle parameter `pick : Nat`, reduced modulo the
size of the candidate list: `Math.floor(Math.random() * n)` is an arbitrary
index in `[0, n)`, and `pick % n` ranges over exactly those indices.
Deferred callbacks (`setTimeout`, `setInterval` ticks) are modelled as
separate operations that re-check state when they fire, as the source does.
-/

/-- `Map.get`: first (unique) binding of key `k` in an association list. -/
def aget {α β : Type} [DecidableEq α] (k : α) : List (α × β) → Option β
  | [] => none
  | e :: rest => if e.1 = k then some e.2 else aget k rest

/-- `Map.set`: overwrite the binding of `k` in place, or append it if absent. -/
def aset {α β : Type} [DecidableEq α] (k : α) (v : β) : List (α × β) → List (α × β)
  | [] => [(k, v)]
  | e :: rest => if e.1 = k then (k, v) :: rest else e :: aset k v rest

/-- `Map.delete`: remove the (unique) binding of `k`, if any. -/
def adel {α β : Type} [DecidableEq α] (k : α) : List (α × β) → List (α × β)
  | [] => []
  | e :: rest => if e.1 = k then rest else e :: adel k rest

/-- `Set.add`: append unless already present. -/
def setAdd (x : String) (l : List String) : List String :=
  if x ∈ l then l else l ++ [x]

/-- The numbers in `1..75` not yet in `calledNumbers` (the candidate list of
both variants' number callers). -/
def availableNumbers (calledNumbers : List Nat) : List Nat :=
  (List.range' 1 75).filter (fun n => decide (n ∉ calledNumbers))

namespace MemServer

/-- Room status in the in-memory variant (`types.ts`): the type used by
`gameState.ts` has "waiting" | "active" | "starting" | "game_over". -/
inductive RoomStatus
  | waiting
  | active
  | starting
  | game_over
deriving DecidableEq

/-- `room.winner` payload (`types.ts`). -/
structure WinnerInfo where
  playerId : String
  playerName : String
  prize : Nat
deriving DecidableEq

/-- `GameRoom` of `types.ts`. `gameInterval` holds whether a number-calling
timer is currently registered for the room (the `NodeJS.Timeout` handle,
reduced to its presence). The `websocket` plumbing is external transport and
is not part of the room. -/
structure GameRoom where
  id : Nat
  stake : Nat
  players : Nat
  prize : Nat
  status : RoomStatus
  activeGames : Option Nat
  hasBonus : Bool
  connectedPlayers : List String
  selectedBoards : List (Nat × String)
  startTime : Option Nat
  calledNumbers : List Nat
  currentNumber : Option Nat
  gameInterval : Bool
  winner : Option WinnerInfo
deriving DecidableEq

/-- `Player` of `types.ts` (the `websocket` field is transport, dropped). -/
structure Player where
  id : String
  name : String
  currentRoom : Option Nat
deriving DecidableEq

/-- `ServerState` of `types.ts` (the `connections` map is transport, dropped). -/
structure ServerState where
  rooms : List (Nat × GameRoom)
  players : List (String × Player)
deriving DecidableEq

/-- `stopNumberCalling` (`gameState.ts`): clears the room's interval handle. -/
def stopNumberCalling (roomId : Nat) (s : ServerState) : ServerState :=
  match aget roomId s.rooms with
  | none => s
  | some room => { s with rooms := aset roomId { room with gameInterval := false } s.rooms }

/-- `resetRoomState` (`gameLogic.ts`): stops number calling (the
`gameInterval := false` field below) and clears the room back to its initial
waiting state. The `shouldBroadcast` flag only controls transport fan-out. -/
def resetRoomState (roomId : Nat) (s : ServerState) : ServerState :=
  match aget roomId s.rooms with
  | none => s
  | some room =>
    { s with rooms := aset roomId { room with
        gameInterval := false,
        status := RoomStatus.waiting,
        calledNumbers := [],
        currentNumber := none,
        prize := 0,
        players := 0,
        winner := none,
        selectedBoards := [],
        connectedPlayers := [] } s.rooms }

/-- `leaveRoom` (`gameState.ts`). `Math.max(0, players - 1)` is `Nat`
truncated subtraction. The board-removal loop deletes every entry whose value
is the leaving player. -/
def leaveRoom (playerId : String) (roomId : Nat) (s : ServerState) : Bool × ServerState :=
  match aget roomId s.rooms, aget playerId s.players with
  | some room, some player =>
    let room1 := { room with
      connectedPlayers := room.connectedPlayers.filter (fun q => q ≠ playerId),
      players := room.players - 1,
      selectedBoards := room.selectedBoards.filter (fun e => e.2 ≠ playerId) }
    let s1 := { s with rooms := aset roomId room1 s.rooms }
    let s2 := if room1.connectedPlayers.length = 0 then resetRoomState roomId s1 else s1
    let s3 := if player.currentRoom = some roomId then
        { s2 with players := aset playerId { player with currentRoom := none } s2.players }
      else s2
    (true, s3)
  | _, _ => (false, s)

/-- `joinRoom` (`gameState.ts`). The source keeps JS references to the room
and player objects fetched at entry; the `leaveRoom` call below only touches a
room `r ≠ roomId` and the player's `currentRoom` field (overwritten right
after), so reusing the originally fetched `room` and `player` is exact. -/
def joinRoom (playerId : String) (roomId : Nat) (s : ServerState) : Bool × ServerState :=
  match aget roomId s.rooms, aget playerId s.players with
  | some room, some player =>
    if playerId ∈ room.connectedPlayers then (true, s)
    else
      let s1 := match player.currentRoom with
        | some r => if r ≠ roomId then (leaveRoom playerId r s).2 else s
        | none => s
      let cp := setAdd playerId room.connectedPlayers
      let room1 := { room with
        connectedPlayers := cp,
        players := cp.length,
        prize := if room.status = RoomStatus.active ∨ room.status = RoomStatus.starting
                 then room.stake * cp.length else room.prize }
      (true, { s1 with rooms := aset roomId room1 s1.rooms,
                       players := aset playerId { player with currentRoom := some roomId } s1.players })
  | _, _ => (false, s)

/-- `addPlayer` (`gameState.ts`): registers a connected player. -/
def addPlayer (playerId playerName : String) (s : ServerState) : ServerState :=
  { s with players := aset playerId { id := playerId, name := playerName, currentRoom := none } s.players }

/-- `removePlayer` (`gameState.ts`): leaves the current room, then deletes
the player entry. -/
def removePlayer (playerId : String) (s : ServerState) : ServerState :=
  match aget playerId s.players with
  | none => s
  | some player =>
    let s1 := match player.currentRoom with
      | some r => (leaveRoom playerId r s).2
      | none => s
    { s1 with players := adel playerId s1.players }

/-- `room.selectedBoards.has(boardId) && room.selectedBoards.get(boardId) !== playerId`. -/
def boardTakenByOther (playerId : String) : Option String → Bool
  | some q => decide (q ≠ playerId)
  | none => false

/-- The deletion loop of `selectBoard`: remove the first entry held by this
player under a different board id, then stop (`break`). -/
def removeFirstBoard (playerId : String) (boardId : Nat) : List (Nat × String) → List (Nat × String)
  | [] => []
  | e :: rest =>
    if e.2 = playerId ∧ e.1 ≠ boardId then rest
    else e :: removeFirstBoard playerId boardId rest

/-- `selectBoard` (`gameState.ts`). -/
def selectBoard (playerId : String) (roomId boardId : Nat) (s : ServerState) : Bool × ServerState :=
  match aget roomId s.rooms, aget playerId s.players with
  | some room, some _ =>
    if boardTakenByOther playerId (aget boardId room.selectedBoards) then (false, s)
    else
      let sb := aset boardId playerId (removeFirstBoard playerId boardId room.selectedBoards)
      (true, { s with rooms := aset roomId { room with selectedBoards := sb } s.rooms })
  | _, _ => (false, s)

/-- `startGameInRoom` (`gameState.ts`), synchronous part: waiting rooms move
to `starting` and have their game fields re-initialised. The 40 s deferred
promotion is `startingTimeoutFires` below. -/
def startGameInRoom (roomId : Nat) (now : Nat) (s : ServerState) : Bool × ServerState :=
  match aget roomId s.rooms with
  | none => (false, s)
  | some room =>
    if room.status = RoomStatus.waiting then
      let room1 := { room with
        status := RoomStatus.starting,
        startTime := some now,
        activeGames := some (room.activeGames.getD 0 + 1),
        players := room.connectedPlayers.length,
        prize := room.stake * room.connectedPlayers.length,
        calledNumbers := [],
        currentNumber := none,
        winner := none }
      (true, { s with rooms := aset roomId room1 s.rooms })
    else (false, s)

/-- `callNextNumber` (`gameState.ts`): one scheduler tick. `pick` is the
random-draw oracle (see the header comment). -/
def callNextNumber (roomId : Nat) (pick : Nat) (s : ServerState) : ServerState :=
  match aget roomId s.rooms with
  | none => s
  | some room =>
    if room.status = RoomStatus.active then
      let avail := availableNumbers room.calledNumbers
      if avail.length = 0 then resetRoomState roomId s
      else
        let n := avail.getD (pick % avail.length) 0
        { s with rooms := aset roomId { room with
            calledNumbers := room.calledNumbers ++ [n],
            currentNumber := some n } s.rooms }
    else s

/-- `startNumberCalling` (`gameState.ts`): registers the interval (replacing
any existing one) and calls the first number immediately. -/
def startNumberCalling (roomId : Nat) (pick : Nat) (s : ServerState) : ServerState :=
  match aget roomId s.rooms with
  | none => s
  | some room =>
    if room.status = RoomStatus.active then
      callNextNumber roomId pick
        { s with rooms := aset roomId { room with gameInterval := true } s.rooms }
    else s

/-- The 40 s `setTimeout` callback scheduled by `startGameInRoom`: promote a
still-`starting` room to `active` and start number calling. -/
def startingTimeoutFires (roomId : Nat) (pick : Nat) (s : ServerState) : ServerState :=
  match aget roomId s.rooms with
  | none => s
  | some room =>
    if room.status = RoomStatus.starting then
      startNumberCalling roomId pick
        { s with rooms := aset roomId { room with status := RoomStatus.active } s.rooms }
    else s

/-- `handleBingoWin` (`gameState.ts`): unless the room is already `game_over`,
record the winner (freezing the prize), mark the room `game_over` and stop
number calling (`gameInterval := false`). The deferred 10 s room reset is a
separate `resetRoomState` operation. -/
def handleBingoWin (roomId : Nat) (winnerPlayerId : String) (s : ServerState) : Bool × ServerState :=
  match aget roomId s.rooms, aget winnerPlayerId s.players with
  | some room, some winner =>
    if room.status = RoomStatus.game_over then (false, s)
    else
      let room1 := { room with
        status := RoomStatus.game_over,
        winner := some { playerId := winner.id, playerName := winner.name, prize := room.prize },
        gameInterval := false }
      (true, { s with rooms := aset roomId room1 s.rooms })
  | _, _ => (false, s)

/-- One room of `initialRooms` (`gameState.ts`). -/
def initialRoom (roomId stake : Nat) (activeGames : Option Nat) : GameRoom :=
  { id := roomId, stake := stake, players := 0, prize := 0, status := RoomStatus.waiting,
    activeGames := activeGames, hasBonus := true, connectedPlayers := [], selectedBoards := [],
    startTime := none, calledNumbers := [], currentNumber := none, gameInterval := false,
    winner := none }

/-- The initial server state: the four default rooms (`initialRooms`), no
players. Rooms 3 and 4 declare `activeGames: 0`; rooms 1 and 2 leave it out. -/
def initialState : ServerState :=
  { rooms := [(1, initialRoom 1 10 none), (2, initialRoom 2 20 none),
              (3, initialRoom 3 50 (some 0)), (4, initialRoom 4 100 (some 0))],
    players := [] }

/-- The command/event alphabet of the in-memory server: inbound commands and
the timer callbacks, each applied as one atomic operation. -/
inductive Op
  | addPlayer (playerId playerName : String)
  | removePlayer (playerId : String)
  | join (playerId : String) (roomId : Nat)
  | leave (playerId : String) (roomId : Nat)
  | select (playerId : String) (roomId boardId : Nat)
  | startGame (roomId now : Nat)
  | startingTimeout (roomId pick : Nat)
  | callTick (roomId pick : Nat)
  | bingo (roomId : Nat) (playerId : String)
  | resetTimeout (roomId : Nat)
  | stopCalling (roomId : Nat)

/-- Apply one operation (result flags are transport concerns and dropped). -/
def applyOp (s : ServerState) : Op → ServerState
  | Op.addPlayer pid pname => addPlayer pid pname s
  | Op.removePlayer pid => removePlayer pid s
  | Op.join pid rid => (joinRoom pid rid s).2
  | Op.leave pid rid => (leaveRoom pid rid s).2
  | Op.select pid rid bid => (selectBoard pid rid bid s).2
  | Op.startGame rid now => (startGameInRoom rid now s).2
  | Op.startingTimeout rid pick => startingTimeoutFires rid pick s
  | Op.callTick rid pick => callNextNumber rid pick s
  | Op.bingo rid pid => (handleBingoWin rid pid s).2
  | Op.resetTimeout rid => resetRoomState rid s
  | Op.stopCalling rid => stopNumberCalling rid s

/-- The state after a sequence of operations from the initial state. -/
def run (ops : List Op) : ServerState :=
  ops.foldl applyOp initialState

end MemServer

namespace StoreServer

/-- Room status in the store-backed variant (`types/game.ts`). -/
inductive RoomStatus
  | waiting
  | starting
  | active
  | finished
deriving DecidableEq

/-- Game status of the per-room `GameState` (`types/game.ts`). -/
inductive GameStatus
  | waiting
  | active
  | finished
deriving DecidableEq

/-- `Player` of `types/game.ts`. -/
structure Player where
  id : String
  name : String
  telegramId : Option Nat
  joinedAt : Nat
deriving DecidableEq

/-- `GameRoom` of `types/game.ts`. An absent `calledNumbers` is modelled as
the empty list. -/
structure GameRoom where
  id : String
  stake : Nat
  players : List Player
  maxPlayers : Nat
  status : RoomStatus
  prize : Nat
  createdAt : Nat
  gameStartTime : Option Nat
  activeGames : Option Nat
  hasBonus : Bool
  calledNumbers : List Nat
  currentNumber : Option Nat
deriving DecidableEq

/-- `Winner` of `types/game.ts`. -/
structure Winner where
  playerId : String
  playerName : String
  winningPattern : String
  timestamp : Nat
deriving DecidableEq

/-- `GameState` of `types/game.ts`. -/
structure GameState where
  roomId : String
  calledNumbers : List Nat
  currentNumber : Option Nat
  gameStatus : GameStatus
  winners : List Winner
  lastUpdate : Nat
  gameStartTime : Option Nat
deriving DecidableEq

/-- A board selection record, as built by `selectBoard`. -/
structure BoardSelection where
  roomId : String
  playerId : String
  playerName : String
  boardNumber : Nat
  timestamp : Nat
deriving DecidableEq

/-- The abstract state store (get/set of rooms, sessions, game state, board
selections) together with the process-local `activeGameIntervals` registry of
the centralized number caller. -/
structure Store where
  rooms : List (String × GameRoom)
  sessions : List (String × String)
  boardSelections : List BoardSelection
  games : List (String × GameState)
  activeGameIntervals : List String
deriving DecidableEq

/-- Modelled from the spec: `GameStateManager.removePlayerSession` of the
abstract state store (the `upstash-client` implementation is not under
`src/`): deletes the `playerId → roomId` session binding. -/
def removePlayerSession (playerId : String) (st : Store) : Store :=
  { st with sessions := adel playerId st.sessions }

/-- Modelled from the spec: `GameStateManager.removePlayerFromAllBoardSelections`
(not under `src/`): evicts every board selection held by this player. -/
def removePlayerFromAllBoardSelections (playerId : String) (st : Store) : Store :=
  { st with boardSelections := st.boardSelections.filter (fun b => decide (b.playerId ≠ playerId)) }

/-- Modelled from the spec: `GameStateManager.removePlayerFromAllRooms`
(not under `src/`): the player is removed from all rooms by session id
before admission. -/
def removePlayerFromAllRooms (playerId : String) (st : Store) : Store :=
  { st with rooms := st.rooms.map (fun e =>
      (e.1, { e.2 with players := e.2.players.filter (fun p => decide (p.id ≠ playerId)) })) }

/-- Modelled from the spec: `GameStateManager.removePlayerByTelegramId`
(not under `src/`): removes every session of this external (Telegram)
identity from every room, protecting the given session id. -/
def removePlayerByTelegramId (telegramId : Nat) (protectedId : String) (st : Store) : Store :=
  { st with rooms := st.rooms.map (fun e =>
      (e.1, { e.2 with players := e.2.players.filter (fun p =>
        decide (¬(p.telegramId = some telegramId ∧ p.id ≠ protectedId))) })) }

/-- Modelled from the spec: `GameStateManager.resetGameState` (not under
`src/`): clears the room's game state back to a fresh waiting instance
("Reset clears `calledNumbers`, `currentNumber`, `gameStartTime`, winners").
Timestamps are abstract; the cleared `lastUpdate` is modelled as 0. -/
def resetGameState (roomId : String) (st : Store) : Store :=
  let fresh : GameState :=
    { roomId := roomId, calledNumbers := [], currentNumber := none,
      gameStatus := GameStatus.waiting, winners := [], lastUpdate := 0,
      gameStartTime := none }
  { st with games := aset roomId fresh st.games }

/-- `stopCentralizedNumberCalling`: clear and deregister the room's interval
(idempotent no-op when none is registered). -/
def stopCentralizedNumberCalling (roomId : String) (st : Store) : Store :=
  { st with activeGameIntervals := st.activeGameIntervals.filter (fun r => decide (r ≠ roomId)) }

/-- `startCentralizedNumberCalling`, synchronous part: clear any existing
caller for the room, then register the new interval. The scheduled ticks are
`callNumberTick` below. -/
def startCentralizedNumberCalling (roomId : String) (st : Store) : Store :=
  let st1 := stopCentralizedNumberCalling roomId st
  { st1 with activeGameIntervals := st1.activeGameIntervals ++ [roomId] }

/-- Modelled from the spec: `GameStateManager.callNextNumber` (not under
`src/`): "compute the set of numbers in `1..75` not yet in `calledNumbers`";
if empty return null, otherwise draw one at random (`pick` oracle), append it
to `calledNumbers`, set it as `currentNumber` and persist. -/
def gsmCallNextNumber (roomId : String) (pick : Nat) (st : Store) : Option Nat × Store :=
  match aget roomId st.games with
  | none => (none, st)
  | some g =>
    let avail := availableNumbers g.calledNumbers
    if avail.length = 0 then (none, st)
    else
      let n := avail.getD (pick % avail.length) 0
      let g1 := { g with calledNumbers := g.calledNumbers ++ [n], currentNumber := some n }
      (some n, { st with games := aset roomId g1 st.games })

/-- One tick of the `callNumber` closure installed by
`startCentralizedNumberCalling`: self-stop when the game state is missing or
not active; when 75 numbers have been called, mark the game finished, persist
and self-stop; otherwise call the next number. -/
def callNumberTick (roomId : String) (pick : Nat) (st : Store) : Store :=
  match aget roomId st.games with
  | none => stopCentralizedNumberCalling roomId st
  | some g =>
    if g.gameStatus ≠ GameStatus.active then stopCentralizedNumberCalling roomId st
    else if 75 ≤ g.calledNumbers.length then
      let g1 := { g with gameStatus := GameStatus.finished }
      stopCentralizedNumberCalling roomId { st with games := aset roomId g1 st.games }
    else
      (gsmCallNextNumber roomId pick st).2

/-- Result shape of `claimBingo` (`{success, gameState?, message?}`). -/
structure ClaimOutcome where
  success : Bool
  gameState : Option GameState
  message : Option String
deriving DecidableEq

/-- `claimBingo` (`GameRoomManager`): reject unless the game state exists and
is active; otherwise append the winner, and if it is the first winner mark
the game finished and stop the centralized caller. -/
def claimBingo (roomId playerId playerName winningPattern : String) (now : Nat)
    (st : Store) : ClaimOutcome × Store :=
  match aget roomId st.games with
  | none =>
    ({ success := false, gameState := none,
       message := some "Game not active or state not found" }, st)
  | some g =>
    if g.gameStatus ≠ GameStatus.active then
      ({ success := false, gameState := none,
         message := some "Game not active or state not found" }, st)
    else
      let w : Winner := { playerId := playerId, playerName := playerName,
                          winningPattern := winningPattern, timestamp := now }
      let g1 := { g with winners := g.winners ++ [w] }
      let g2 := if g1.winners.length = 1 then { g1 with gameStatus := GameStatus.finished } else g1
      let st1 := if g1.winners.length = 1 then stopCentralizedNumberCalling roomId st else st
      let g3 := { g2 with lastUpdate := now }
      ({ success := true, gameState := some g3, message := none },
       { st1 with games := aset roomId g3 st1.games })

/-- Result shape of `leaveRoom` (`{success, room?}`). -/
structure LeaveOutcome where
  success : Bool
  room : Option GameRoom
deriving DecidableEq

/-- `players.splice(playerIndex, 1)`: drop the first player with this id. -/
def removeFirstPlayer (playerId : String) : List Player → List Player
  | [] => []
  | p :: rest => if p.id = playerId then rest else p :: removeFirstPlayer playerId rest

/-- `leaveRoom` (`GameRoomManager`): remove the player (first index found),
recompute `prize = players.length * stake`, clear session and board
selections; reset the room to waiting (clearing game fields, game state and
the caller) when it empties or drops below 2 players mid-game. -/
def leaveRoom (roomId playerId : String) (st : Store) : LeaveOutcome × Store :=
  match aget roomId st.rooms with
  | none => ({ success := false, room := none }, st)
  | some room =>
    match room.players.find? (fun p => decide (p.id = playerId)) with
    | none => ({ success := false, room := none }, st)
    | some _ =>
      let players1 := removeFirstPlayer playerId room.players
      let room1 := { room with players := players1, prize := players1.length * room.stake }
      let st1 := removePlayerFromAllBoardSelections playerId (removePlayerSession playerId st)
      let roomReset := { room1 with
        status := RoomStatus.waiting,
        activeGames := some 0,
        calledNumbers := [],
        currentNumber := none,
        gameStartTime := none }
      -- the source's two consecutive reset branches (room empty; fewer than 2
      -- players while not waiting) have identical bodies, merged here into one
      -- disjunctive condition
      let doReset := players1.length = 0 ∨
        (players1.length < 2 ∧ room1.status ≠ RoomStatus.waiting)
      let room2 := if doReset then roomReset else room1
      let st2 := if doReset
        then stopCentralizedNumberCalling roomId (resetGameState roomId st1)
        else st1
      ({ success := true, room := some room2 },
       { st2 with rooms := aset roomId room2 st2.rooms })

/-- Result shape of `joinRoom` (`{success, room?, message?}`). -/
structure JoinOutcome where
  success : Bool
  room : Option GameRoom
  message : Option String
deriving DecidableEq

/-- The tail of `joinRoom` after duplicate-session resolution: push the
player, recompute the prize, apply the auto-start check, persist room and
session. The source compares `players.length` with `minPlayers` (2) and with
`autoStartThreshold = Math.min(maxPlayers * 0.1, 10)`; in exact arithmetic
`len ≥ min (maxPlayers / 10) 10` is the scaled comparison
`10 * len ≥ min maxPlayers 100` used here (at the configured
`maxPlayers = 100` the IEEE double `100 * 0.1` is exactly `10`, so the
models agree). The 10 s deferred activation is `startingTimeoutFires`. -/
def admitPlayer (roomId : String) (player : Player) (roomA : GameRoom) (st : Store) :
    JoinOutcome × Store :=
  let players2 := roomA.players ++ [player]
  let status2 := if 2 ≤ players2.length ∧ min roomA.maxPlayers 100 ≤ 10 * players2.length
                 then RoomStatus.starting else roomA.status
  let room2 := { roomA with
    players := players2,
    prize := players2.length * roomA.stake,
    status := status2 }
  ({ success := true, room := some room2, message := none },
   { st with
     rooms := aset roomId room2 st.rooms,
     sessions := aset player.id roomId st.sessions })

/-- `joinRoom` (`GameRoomManager`). Failure modes: room not found, room full,
status not waiting. Then: leave a previous (different) room recorded in the
session map; resolve duplicate sessions (by Telegram identity when present,
by session id for guests — the guest rejoin is a no-op that refreshes the
session); clean the player out of other rooms; admit. The store returns
fresh copies on every read, so `room` fetched at entry is unaffected by the
store-level cleanups in between — the local copy is what gets pushed to and
persisted, exactly as in the source. -/
def joinRoom (roomId : String) (player : Player) (st : Store) : JoinOutcome × Store :=
  match aget roomId st.rooms with
  | none => ({ success := false, room := none, message := some "Room not found" }, st)
  | some room =>
    if room.maxPlayers ≤ room.players.length then
      ({ success := false, room := none, message := some "Room is full" }, st)
    else if room.status ≠ RoomStatus.waiting then
      ({ success := false, room := none, message := some "Game already started" }, st)
    else
      let st1 := match aget player.id st.sessions with
        | some prev => if prev ≠ roomId then (leaveRoom prev player.id st).2 else st
        | none => st
      match player.telegramId with
      | some tid =>
        match room.players.find? (fun p => decide (p.telegramId = some tid)) with
        | some existing =>
          if existing.id ≠ player.id then
            let roomA := { room with
              players := room.players.filter (fun p => decide (p.telegramId ≠ some tid)) }
            let st2 := removePlayerFromAllBoardSelections existing.id
              (removePlayerSession existing.id st1)
            admitPlayer roomId player roomA (removePlayerByTelegramId tid player.id st2)
          else
            admitPlayer roomId player room (removePlayerByTelegramId tid player.id st1)
        | none =>
          admitPlayer roomId player room (removePlayerByTelegramId tid player.id st1)
      | none =>
        match room.players.find? (fun p => decide (p.id = player.id)) with
        | some _ =>
          ({ success := true, room := some room, message := some "Already in room" },
           { st1 with sessions := aset player.id roomId st1.sessions })
        | none =>
          admitPlayer roomId player room (removePlayerFromAllRooms player.id st1)

/-- The 10 s `setTimeout` callback scheduled by `joinRoom`'s auto-start:
promote a still-`starting` room to `active`, stamp `gameStartTime`, set
`activeGames = 1`, persist, and start the centralized caller. -/
def startingTimeoutFires (roomId : String) (now : Nat) (st : Store) : Store :=
  match aget roomId st.rooms with
  | none => st
  | some room =>
    if room.status = RoomStatus.starting then
      let room1 := { room with
        status := RoomStatus.active,
        gameStartTime := some now,
        activeGames := some 1 }
      startCentralizedNumberCalling roomId { st with rooms := aset roomId room1 st.rooms }
    else st

end StoreServer

/-! ### Basic association-list lemmas -/

theorem aget_aset_self {α β : Type} [DecidableEq α] (k : α) (v : β) (l : List (α × β)) :
    aget k (aset k v l) = some v := by
  induction l with
  | nil => simp [aget, aset]
  | cons e rest ih =>
    by_cases h : e.1 = k
    · simp [aset, h, aget]
    · simp [aset, h, aget, ih]

theorem aget_aset_ne {α β : Type} [DecidableEq α] {k k' : α} (v : β) (l : List (α × β))
    (h : k' ≠ k) : aget k' (aset k v l) = aget k' l := by
  have h' : ¬ k = k' := fun hk => h hk.symm
  induction l with
  | nil => simp [aget, aset, h']
  | cons e rest ih =>
    by_cases he : e.1 = k
    · have hne2 : ¬ e.1 = k' := by rw [he]; exact h'
      simp [aset, he, aget, h', hne2]
    · simp [aset, he, aget, ih]

theorem aset_aget_self {α β : Type} [DecidableEq α] {k : α} {v : β} {l : List (α × β)}
    (h : aget k l = some v) : aset k v l = l := by
  induction l with
  | nil => simp [aget] at h
  | cons e rest ih =>
    obtain ⟨k1, v1⟩ := e
    by_cases he : k1 = k
    · subst he
      have hv : v1 = v := by simpa [aget] using h
      subst hv
      simp [aset]
    · have h' : aget k rest = some v := by simpa [aget, he] using h
      simp [aset, he, ih h']

/-! ### Facts about the remaining-numbers computation -/

theorem mem_availableNumbers {cs : List Nat} {n : Nat} (h : n ∈ availableNumbers cs) :
    (1 ≤ n ∧ n ≤ 75) ∧ n ∉ cs := by
  have h' := h
  simp only [availableNumbers, List.mem_filter, decide_eq_true_eq] at h'
  obtain ⟨hr, hn⟩ := h'
  have := List.mem_range'_1.mp hr
  exact ⟨⟨this.1, by omega⟩, hn⟩

theorem le_length_of_availableNumbers_nil {cs : List Nat}
    (h : availableNumbers cs = []) : 75 ≤ cs.length := by
  have hsub : List.range' 1 75 ⊆ cs := by
    intro n hn
    by_contra hmem
    have hin : n ∈ availableNumbers cs := by
      simp [availableNumbers, List.mem_filter, hn, hmem]
    simp [h] at hin
  have hnd : (List.range' 1 75).Nodup := List.nodup_range' 1 75
  have hle := (List.subperm_of_subset hnd hsub).length_le
  simpa using hle

theorem getD_mem_of_lt {l : List Nat} {i : Nat} (h : i < l.length) (d : Nat) :
    l.getD i d ∈ l := by
  induction l generalizing i with
  | nil => simp at h
  | cons x xs ih =>
    cases i with
    | zero => simp
    | succ j =>
      have hj : j < xs.length := by simpa using h
      simpa using Or.inr (ih hj)

/-! ### Claim C1: the exhaustion path of the number-calling scheduler -/

/-- Concrete fixture for C1: an active in-memory room with all 75 numbers
already called. -/
def c1Room : MemServer.GameRoom :=
  { MemServer.initialRoom 1 10 none with
    status := MemServer.RoomStatus.active,
    connectedPlayers := ["a", "b"],
    players := 2,
    prize := 20,
    calledNumbers := List.range' 1 75,
    currentNumber := some 75,
    gameInterval := true }

/-- Concrete fixture for C1: the in-memory server holding `c1Room`. -/
def c1State : MemServer.ServerState :=
  { rooms := [(1, c1Room)],
    players := [("a", { id := "a", name := "A", currentRoom := some 1 }),
                ("b", { id := "b", name := "B", currentRoom := some 1 })] }

/-- Concrete fixture for C1: an active store-backed game with all 75 numbers
called. -/
def c1Game : StoreServer.GameState :=
  { roomId := "r1"
    calledNumbers := List.range' 1 75
    currentNumber := some 75
    gameStatus := StoreServer.GameStatus.active
    winners := []
    lastUpdate := 0
    gameStartTime := none }

/-- Concrete fixture for C1: the store holding `c1Game` with a registered
caller. -/
def c1Store : StoreServer.Store :=
  { rooms := []
    sessions := []
    boardSelections := []
    games := [("r1", c1Game)]
    activeGameIntervals := ["r1"] }

/-- Claim C1, counterexample: in the in-memory variant an active room whose
remaining-number set is empty is handled by `resetRoomState` at the tick, so
its status becomes `waiting` — not the game-over status the claim requires
("the exhaustion path ends the game as finished, not any other status"). -/
theorem c1_counterexample :
    (aget 1 (MemServer.callNextNumber 1 0 c1State).rooms).map MemServer.GameRoom.status =
      some MemServer.RoomStatus.waiting ∧
    MemServer.RoomStatus.waiting ≠ MemServer.RoomStatus.game_over := by
  constructor
  · decide
  · decide

/-- Claim C1 (amended): at a scheduler tick of an active game whose set of
remaining numbers in `1..75` is empty, the store-backed variant marks the
game `finished` and deregisters the room's caller; the in-memory variant
instead resets the room to `waiting` (clearing `calledNumbers`,
`currentNumber` and the interval handle) — its exhaustion path does not end
the game as finished. -/
theorem c1_exhaustion_path :
    (∀ (st : StoreServer.Store) (rid : String) (pick : Nat) (g : StoreServer.GameState),
      aget rid st.games = some g →
      g.gameStatus = StoreServer.GameStatus.active →
      availableNumbers g.calledNumbers = [] →
      aget rid (StoreServer.callNumberTick rid pick st).games =
          some { g with gameStatus := StoreServer.GameStatus.finished } ∧
        rid ∉ (StoreServer.callNumberTick rid pick st).activeGameIntervals) ∧
    (∀ (s : MemServer.ServerState) (rid pick : Nat) (room : MemServer.GameRoom),
      aget rid s.rooms = some room →
      room.status = MemServer.RoomStatus.active →
      availableNumbers room.calledNumbers = [] →
      ∃ room2, aget rid (MemServer.callNextNumber rid pick s).rooms = some room2 ∧
        room2.status = MemServer.RoomStatus.waiting ∧
        room2.gameInterval = false ∧
        room2.calledNumbers = [] ∧
        room2.currentNumber = none) := by
  constructor
  · intro st rid pick g hg hactive hexh
    have hlen : 75 ≤ g.calledNumbers.length := le_length_of_availableNumbers_nil hexh
    have hres : StoreServer.callNumberTick rid pick st =
        StoreServer.stopCentralizedNumberCalling rid
          { st with games := aset rid { g with gameStatus := StoreServer.GameStatus.finished }
                      st.games } := by
      simp [StoreServer.callNumberTick, hg, hactive, hlen]
    rw [hres]
    constructor
    · simp [StoreServer.stopCentralizedNumberCalling, aget_aset_self]
    · simp [StoreServer.stopCentralizedNumberCalling, List.mem_filter]
  · intro s rid pick room hroom hactive hexh
    have hlen : (availableNumbers room.calledNumbers).length = 0 := by simp [hexh]
    have hres : MemServer.callNextNumber rid pick s = MemServer.resetRoomState rid s := by
      simp [MemServer.callNextNumber, hroom, hactive, hlen]
    refine ⟨{ room with
      gameInterval := false,
      status := MemServer.RoomStatus.waiting,
      calledNumbers := [],
      currentNumber := none,
      prize := 0,
      players := 0,
      winner := none,
      selectedBoards := [],
      connectedPlayers := [] }, ?_, rfl, rfl, rfl, rfl⟩
    rw [hres]
    simp [MemServer.resetRoomState, hroom, aget_aset_self]

/-! ### Claim C4: prize = players × stake after membership changes -/

/-- Any room admitted by `admitPlayer` carries `prize = players.length * stake`. -/
theorem admitPlayer_prize (rid : String) (p : StoreServer.Player)
    (roomA : StoreServer.GameRoom) (st : StoreServer.Store) :
    ∀ r2, (StoreServer.admitPlayer rid p roomA st).1.room = some r2 →
      r2.prize = r2.players.length * r2.stake := by
  intro r2 h
  have h' := Option.some.inj h
  subst h'
  rfl

/-- Concrete fixture for C4: an active in-memory room with three members and
`prize = 30`. -/
def c4Room : MemServer.GameRoom :=
  { MemServer.initialRoom 1 10 none with
    status := MemServer.RoomStatus.active,
    connectedPlayers := ["a", "b", "c"],
    players := 3,
    prize := 30 }

/-- Concrete fixture for C4: the in-memory server holding `c4Room`. -/
def c4State : MemServer.ServerState :=
  { rooms := [(1, c4Room)],
    players := [("a", { id := "a", name := "A", currentRoom := some 1 })] }

/-- Concrete fixture for C4: two store-backed players. -/
def c4PB1 : StoreServer.Player := { id := "s1", name := "P1", telegramId := none, joinedAt := 0 }

/-- Concrete fixture for C4: a guest player joining fresh. -/
def c4PB : StoreServer.Player := { id := "s9", name := "P9", telegramId := none, joinedAt := 0 }

/-- Concrete fixture for C4: an active store-backed room with two members. -/
def c4RoomB : StoreServer.GameRoom :=
  { id := "r1"
    stake := 10
    players := [c4PB1, { id := "s2", name := "P2", telegramId := none, joinedAt := 0 }]
    maxPlayers := 100
    status := StoreServer.RoomStatus.active
    prize := 20
    createdAt := 0
    gameStartTime := none
    activeGames := some 1
    hasBonus := true
    calledNumbers := []
    currentNumber := none }

/-- Concrete fixture for C4: the store holding `c4RoomB`. -/
def c4StoreB : StoreServer.Store :=
  { rooms := [("r1", c4RoomB)]
    sessions := [("s1", "r1"), ("s2", "r1")]
    boardSelections := []
    games := []
    activeGameIntervals := [] }

/-- Concrete fixture for C4: a waiting store-backed room with one member. -/
def c4RoomB0 : StoreServer.GameRoom :=
  { c4RoomB with status := StoreServer.RoomStatus.waiting, players := [c4PB1], prize := 10,
                 activeGames := some 0 }

/-- Concrete fixture for C4: the store holding `c4RoomB0`. -/
def c4StoreB0 : StoreServer.Store :=
  { rooms := [("r1", c4RoomB0)]
    sessions := [("s1", "r1")]
    boardSelections := []
    games := []
    activeGameIntervals := [] }

/-- The room stored by the C4 leave fixture, extracted from the result. -/
def c4RoomBAfter : StoreServer.GameRoom :=
  ((StoreServer.leaveRoom "r1" "s1" c4StoreB).1.room).getD c4RoomB

/-- The room stored by the C4 join fixture, extracted from the result. -/
def c4JoinAfter : StoreServer.GameRoom :=
  ((StoreServer.joinRoom "r1" c4PB c4StoreB0).1.room).getD c4RoomB0

/-- Claim C4, counterexample: in the in-memory variant a leave from a
three-member room leaves `prize = 30` untouched while the player count drops
to 2, so `prize ≠ players × stake` right after a membership change. -/
theorem c4_counterexample :
    (aget 1 (MemServer.leaveRoom "a" 1 c4State).2.rooms).map
        (fun r => (r.prize, r.players, r.stake)) = some (30, 2, 10) ∧
    30 ≠ 2 * 10 := ⟨by decide, by decide⟩

/-- Claim C4 (amended): the store-backed variant recomputes
`prize = players.length × stake` on every leave and on every admitting join
(regardless of room status); the in-memory variant, however, does not touch
the prize on a leave that keeps the room occupied — the stale prize survives
with a decremented player count. -/
theorem c4_prize_recompute :
    (∀ (st : StoreServer.Store) (rid pid : String) (room : StoreServer.GameRoom)
        (p : StoreServer.Player),
      aget rid st.rooms = some room →
      room.players.find? (fun q => decide (q.id = pid)) = some p →
      ∀ r2, (StoreServer.leaveRoom rid pid st).1.room = some r2 →
        r2.prize = r2.players.length * r2.stake) ∧
    (∀ (st : StoreServer.Store) (rid : String) (player : StoreServer.Player),
      ∀ r2, (StoreServer.joinRoom rid player st).1.room = some r2 →
        (StoreServer.joinRoom rid player st).1.message = none →
        r2.prize = r2.players.length * r2.stake) ∧
    (∀ (s : MemServer.ServerState) (rid : Nat) (pid : String)
        (room : MemServer.GameRoom) (player : MemServer.Player),
      aget rid s.rooms = some room →
      aget pid s.players = some player →
      (room.connectedPlayers.filter (fun q => q ≠ pid)).length ≠ 0 →
      ∃ room2, aget rid (MemServer.leaveRoom pid rid s).2.rooms = some room2 ∧
        room2.prize = room.prize ∧ room2.players = room.players - 1) := by
  refine ⟨?_, ?_, ?_⟩
  · intro st rid pid room p hroom hfind r2 h2
    simp only [StoreServer.leaveRoom, hroom, hfind] at h2
    have h2' := Option.some.inj h2
    subst h2'
    split_ifs <;> rfl
  · intro st rid player r2 h2 hmsg
    cases hr : aget rid st.rooms with
    | none => simp [StoreServer.joinRoom, hr] at h2
    | some room =>
      by_cases hfull : room.maxPlayers ≤ room.players.length
      · simp [StoreServer.joinRoom, hr, hfull] at h2
      · by_cases hst : room.status ≠ StoreServer.RoomStatus.waiting
        · simp [StoreServer.joinRoom, hr, hfull, hst] at h2
        · cases htid : player.telegramId with
          | some tid =>
            cases hfind : room.players.find? (fun p => decide (p.telegramId = some tid)) with
            | some existing =>
              by_cases hex : existing.id ≠ player.id
              · simp only [StoreServer.joinRoom, hr, hfull, hst, htid, hfind] at h2
                rw [if_pos hex] at h2
                exact admitPlayer_prize _ _ _ _ r2 h2
              · simp only [StoreServer.joinRoom, hr, hfull, hst, htid, hfind] at h2
                rw [if_neg hex] at h2
                exact admitPlayer_prize _ _ _ _ r2 h2
            | none =>
              simp only [StoreServer.joinRoom, hr, hfull, hst, htid, hfind] at h2
              exact admitPlayer_prize _ _ _ _ r2 h2
          | none =>
            cases hfind : room.players.find? (fun p => decide (p.id = player.id)) with
            | some q =>
              simp [StoreServer.joinRoom, hr, hfull, hst, htid, hfind] at hmsg
            | none =>
              simp only [StoreServer.joinRoom, hr, hfull, hst, htid, hfind] at h2
              exact admitPlayer_prize _ _ _ _ r2 h2
  · intro s rid pid room player hroom hplayer hne
    refine ⟨{ room with
      connectedPlayers := room.connectedPlayers.filter (fun q => q ≠ pid),
      players := room.players - 1,
      selectedBoards := room.selectedBoards.filter (fun e => e.2 ≠ pid) }, ?_, rfl, rfl⟩
    simp only [MemServer.leaveRoom, hroom, hplayer]
    rw [if_neg hne]
    by_cases hcr : player.currentRoom = some rid
    · rw [if_pos hcr]
      exact aget_aset_self _ _ _
    · rw [if_neg hcr]
      exact aget_aset_self _ _ _

/-- Witness for C4's amended theorem at the concrete fixtures. -/
theorem c4_prize_recompute_witness :
    (c4RoomBAfter.prize = c4RoomBAfter.players.length * c4RoomBAfter.stake) ∧
    (c4JoinAfter.prize = c4JoinAfter.players.length * c4JoinAfter.stake) ∧
    (∃ room2, aget 1 (MemServer.leaveRoom "a" 1 c4State).2.rooms = some room2 ∧
      room2.prize = c4Room.prize ∧ room2.players = c4Room.players - 1) :=
  ⟨c4_prize_recompute.1 c4StoreB "r1" "s1" c4RoomB c4PB1 rfl (by decide)
      c4RoomBAfter (by decide),
   c4_prize_recompute.2.1 c4StoreB0 "r1" c4PB c4JoinAfter (by decide) (by decide),
   c4_prize_recompute.2.2 c4State 1 "a" c4Room { id := "a", name := "A", currentRoom := some 1 }
      rfl rfl (by decide)⟩

/-! ### Claim C2: guarding bingo claims by game status -/

/-- Concrete fixture for C2: a waiting in-memory room with one member. -/
def c2Room : MemServer.GameRoom :=
  { MemServer.initialRoom 1 10 none with connectedPlayers := ["a"], players := 1 }

/-- Concrete fixture for C2: the in-memory server holding `c2Room`. -/
def c2State : MemServer.ServerState :=
  { rooms := [(1, c2Room)],
    players := [("a", { id := "a", name := "A", currentRoom := some 1 })] }

/-- Concrete fixture for C2: a finished store-backed game. -/
def c2Game : StoreServer.GameState :=
  { roomId := "r1"
    calledNumbers := [3]
    currentNumber := some 3
    gameStatus := StoreServer.GameStatus.finished
    winners := []
    lastUpdate := 0
    gameStartTime := none }

/-- Concrete fixture for C2: the store holding `c2Game`. -/
def c2Store : StoreServer.Store :=
  { rooms := []
    sessions := []
    boardSelections := []
    games := [("r1", c2Game)]
    activeGameIntervals := [] }

/-- Claim C2, counterexample: in the in-memory variant a bingo claim on a
`waiting` (hence not active) room is accepted — the handler only rejects when
the status is already `game_over` — and it mutates the room, contradicting
"rejects ... whenever the game's status is not active, and in that case no
winner record is appended and the game state is unchanged". -/
theorem c2_counterexample :
    (aget 1 c2State.rooms).map MemServer.GameRoom.status =
      some MemServer.RoomStatus.waiting ∧
    (MemServer.handleBingoWin 1 "a" c2State).1 = true ∧
    (aget 1 (MemServer.handleBingoWin 1 "a" c2State).2.rooms).map MemServer.GameRoom.status =
      some MemServer.RoomStatus.game_over := by
  exact ⟨by decide, by decide, by decide⟩

/-- Claim C2 (amended): the store-backed `claimBingo` rejects with the
game-not-active failure, appending nothing and leaving the store unchanged,
whenever the game state is missing or its status is not `active`; the
in-memory `handleBingoWin`, however, only rejects when the room is already
`game_over` (or a lookup fails) — a claim in any other status, active or not,
is accepted and ends the game. -/
theorem c2_claim_guard :
    (∀ (st : StoreServer.Store) (rid pid pname pat : String) (now : Nat),
      (∀ g, aget rid st.games = some g → g.gameStatus ≠ StoreServer.GameStatus.active) →
      StoreServer.claimBingo rid pid pname pat now st =
        ({ success := false, gameState := none,
           message := some "Game not active or state not found" }, st)) ∧
    (∀ (s : MemServer.ServerState) (rid : Nat) (pid : String)
        (room : MemServer.GameRoom) (player : MemServer.Player),
      aget rid s.rooms = some room →
      aget pid s.players = some player →
      room.status ≠ MemServer.RoomStatus.game_over →
      (MemServer.handleBingoWin rid pid s).1 = true ∧
      ∃ room2, aget rid (MemServer.handleBingoWin rid pid s).2.rooms = some room2 ∧
        room2.status = MemServer.RoomStatus.game_over ∧
        room2.winner = some { playerId := player.id, playerName := player.name,
                              prize := room.prize }) := by
  constructor
  · intro st rid pid pname pat now h
    cases hg : aget rid st.games with
    | none => simp [StoreServer.claimBingo, hg]
    | some g =>
      have hne := h g hg
      simp [StoreServer.claimBingo, hg, hne]
  · intro s rid pid room player hroom hplayer hne
    refine ⟨by simp [MemServer.handleBingoWin, hroom, hplayer, hne], ?_⟩
    refine ⟨{ room with
      status := MemServer.RoomStatus.game_over,
      winner := some { playerId := player.id, playerName := player.name, prize := room.prize },
      gameInterval := false }, ?_, rfl, rfl⟩
    simp [MemServer.handleBingoWin, hroom, hplayer, hne, aget_aset_self]

/-- Witness for C2's amended theorem at the concrete fixtures. -/
theorem c2_claim_guard_witness :
    (StoreServer.claimBingo "r1" "p" "P" "BINGO" 9 c2Store =
      ({ success := false, gameState := none,
         message := some "Game not active or state not found" }, c2Store)) ∧
    ((MemServer.handleBingoWin 1 "a" c2State).1 = true ∧
      ∃ room2, aget 1 (MemServer.handleBingoWin 1 "a" c2State).2.rooms = some room2 ∧
        room2.status = MemServer.RoomStatus.game_over ∧
        room2.winner = some { playerId := "a", playerName := "A", prize := 0 }) :=
  ⟨c2_claim_guard.1 c2Store "r1" "p" "P" "BINGO" 9
      (by
        intro g hg
        have hg' : some c2Game = some g := hg
        cases Option.some.inj hg'
        decide),
   c2_claim_guard.2 c2State 1 "a" c2Room { id := "a", name := "A", currentRoom := some 1 }
      rfl rfl (by decide)⟩

/-! ### Claim C3: winners after the first -/

/-- Concrete fixture for C3: an active store-backed game with no winner yet
and a registered caller. -/
def c3Game : StoreServer.GameState :=
  { roomId := "r1"
    calledNumbers := [5]
    currentNumber := some 5
    gameStatus := StoreServer.GameStatus.active
    winners := []
    lastUpdate := 0
    gameStartTime := none }

/-- Concrete fixture for C3: the store holding `c3Game`. -/
def c3Store : StoreServer.Store :=
  { rooms := []
    sessions := []
    boardSelections := []
    games := [("r1", c3Game)]
    activeGameIntervals := ["r1"] }

/-- Claim C3, counterexample: after a first winner is recorded the game is
`finished`, so a second bingo claim is rejected and the winners list stays at
the single first entry — subsequent claims are not "still appended". -/
theorem c3_counterexample :
    ((StoreServer.claimBingo "r1" "p2" "P2" "BINGO" 4
        (StoreServer.claimBingo "r1" "p1" "P1" "BINGO" 3 c3Store).2).1.success = false) ∧
    ((aget "r1" (StoreServer.claimBingo "r1" "p2" "P2" "BINGO" 4
        (StoreServer.claimBingo "r1" "p1" "P1" "BINGO" 3 c3Store).2).2.games).map
      (fun g => g.winners.map StoreServer.Winner.playerId) = some ["p1"]) := by
  exact ⟨by decide, by decide⟩

/-- Claim C3 (amended): the winners sequence only grows while the game is
active; the first claim appends its winner, marks the game `finished` and
stops the caller, and every subsequent claim (the game now being `finished`)
is rejected with the game-not-active failure and appends nothing — it is not
recorded. -/
theorem c3_first_winner_finishes :
    (∀ (st : StoreServer.Store) (rid pid pname pat : String) (now : Nat)
        (g : StoreServer.GameState),
      aget rid st.games = some g →
      g.gameStatus = StoreServer.GameStatus.active →
      g.winners = [] →
      (StoreServer.claimBingo rid pid pname pat now st).1.success = true ∧
      aget rid (StoreServer.claimBingo rid pid pname pat now st).2.games = some
        { g with winners := [{ playerId := pid, playerName := pname,
                               winningPattern := pat, timestamp := now }],
                 gameStatus := StoreServer.GameStatus.finished, lastUpdate := now } ∧
      rid ∉ (StoreServer.claimBingo rid pid pname pat now st).2.activeGameIntervals) ∧
    (∀ (st : StoreServer.Store) (rid pid pname pat : String) (now : Nat)
        (g : StoreServer.GameState),
      aget rid st.games = some g →
      g.gameStatus = StoreServer.GameStatus.finished →
      StoreServer.claimBingo rid pid pname pat now st =
        ({ success := false, gameState := none,
           message := some "Game not active or state not found" }, st)) := by
  constructor
  · intro st rid pid pname pat now g hg hactive hw
    refine ⟨?_, ?_, ?_⟩ <;>
      simp [StoreServer.claimBingo, hg, hactive, hw, aget_aset_self,
        StoreServer.stopCentralizedNumberCalling, List.mem_filter]
  · intro st rid pid pname pat now g hg hfin
    simp [StoreServer.claimBingo, hg, hfin]

/-- Witness for C3's amended theorem at the concrete fixtures. -/
theorem c3_first_winner_finishes_witness :
    ((StoreServer.claimBingo "r1" "p1" "P1" "BINGO" 3 c3Store).1.success = true ∧
      aget "r1" (StoreServer.claimBingo "r1" "p1" "P1" "BINGO" 3 c3Store).2.games = some
        { c3Game with winners := [{ playerId := "p1", playerName := "P1",
                                    winningPattern := "BINGO", timestamp := 3 }],
                      gameStatus := StoreServer.GameStatus.finished, lastUpdate := 3 } ∧
      "r1" ∉ (StoreServer.claimBingo "r1" "p1" "P1" "BINGO" 3 c3Store).2.activeGameIntervals) ∧
    (StoreServer.claimBingo "r1" "p2" "P2" "BINGO" 4
        (StoreServer.claimBingo "r1" "p1" "P1" "BINGO" 3 c3Store).2 =
      ({ success := false, gameState := none,
         message := some "Game not active or state not found" },
       (StoreServer.claimBingo "r1" "p1" "P1" "BINGO" 3 c3Store).2)) :=
  ⟨c3_first_winner_finishes.1 c3Store "r1" "p1" "P1" "BINGO" 3 c3Game rfl rfl rfl,
   c3_first_winner_finishes.2 (StoreServer.claimBingo "r1" "p1" "P1" "BINGO" 3 c3Store).2
      "r1" "p2" "P2" "BINGO" 4
      { c3Game with winners := [{ playerId := "p1", playerName := "P1",
                                  winningPattern := "BINGO", timestamp := 3 }],
                    gameStatus := StoreServer.GameStatus.finished, lastUpdate := 3 }
      (by decide) (by decide)⟩

/-! ### Claim C5: the waiting→starting auto-start trigger -/

/-- The source's auto-start comparison `players.length >= Math.min(maxPlayers
* 0.1, 10)`, in exact arithmetic, equals the scaled `Nat` comparison used in
`admitPlayer`. -/
theorem scaled_threshold_iff (mp len : Nat) :
    min mp 100 ≤ 10 * len ↔ min ((mp : ℚ) / 10) 10 ≤ (len : ℚ) := by
  rw [min_le_iff, min_le_iff, div_le_iff₀ (by norm_num : (0:ℚ) < 10)]
  constructor
  · rintro (h | h)
    · left
      have h' : (mp : ℚ) ≤ ((10 * len : Nat) : ℚ) := by exact_mod_cast h
      push_cast at h'
      linarith
    · right
      have h' : (10 : Nat) ≤ len := by omega
      exact_mod_cast h'
  · rintro (h | h)
    · left
      have h' : (mp : ℚ) ≤ ((10 * len : Nat) : ℚ) := by push_cast; linarith
      exact_mod_cast h'
    · right
      have h' : (10 : Nat) ≤ len := by exact_mod_cast h
      omega

/-- Concrete fixture for C5: a waiting store-backed room, stake 10,
`maxPlayers = 100`, with one member. -/
def c5Room : StoreServer.GameRoom :=
  { id := "r1"
    stake := 10
    players := [{ id := "s1", name := "P1", telegramId := none, joinedAt := 0 }]
    maxPlayers := 100
    status := StoreServer.RoomStatus.waiting
    prize := 10
    createdAt := 0
    gameStartTime := none
    activeGames := some 0
    hasBonus := true
    calledNumbers := []
    currentNumber := none }

/-- Concrete fixture for C5: the store holding `c5Room`. -/
def c5Store : StoreServer.Store :=
  { rooms := [("r1", c5Room)]
    sessions := [("s1", "r1")]
    boardSelections := []
    games := []
    activeGameIntervals := [] }

/-- Concrete fixture for C5: the second guest player to join. -/
def c5P2 : StoreServer.Player := { id := "s2", name := "P2", telegramId := none, joinedAt := 0 }

/-- Claim C5, counterexample: in a room with `stake = 10, maxPlayers = 100`
the threshold `min(100 × 0.1, 10)` is 10, so after the second player joins
the room is still `waiting` — the claim's "status becomes starting once two
players have joined" fails. -/
theorem c5_counterexample :
    ((StoreServer.joinRoom "r1" c5P2 c5Store).1.room).map
        (fun r => (decide (r.status = StoreServer.RoomStatus.starting),
                   r.players.length, r.maxPlayers, r.stake)) =
      some (false, 2, 100, 10) := by decide

/-- Claim C5 (amended): a fresh (guest, not yet a member) join into a
waiting, non-full room admits the player and moves the status to `starting`
exactly when, after admission, `players.size ≥ 2` and
`players.size ≥ min(maxPlayers × 0.1, 10)`; with `maxPlayers = 100` the
threshold is 10, so such a room becomes `starting` only at the tenth join,
not at the second. -/
theorem c5_autostart_condition :
    ∀ (st : StoreServer.Store) (rid : String) (player : StoreServer.Player)
      (room : StoreServer.GameRoom),
      aget rid st.rooms = some room →
      room.status = StoreServer.RoomStatus.waiting →
      room.players.length < room.maxPlayers →
      player.telegramId = none →
      room.players.find? (fun p => decide (p.id = player.id)) = none →
      ∀ r2, (StoreServer.joinRoom rid player st).1.room = some r2 →
        r2.players.length = room.players.length + 1 ∧
        (r2.status = StoreServer.RoomStatus.starting ↔
          (2 ≤ room.players.length + 1 ∧
           min ((room.maxPlayers : ℚ) / 10) 10 ≤ (room.players.length + 1 : ℚ))) := by
  intro st rid player room hroom hwait hlt htid hfind r2 h2
  have hfull : ¬ room.maxPlayers ≤ room.players.length := not_le.mpr hlt
  have hst : ¬ room.status ≠ StoreServer.RoomStatus.waiting := by simp [hwait]
  simp only [StoreServer.joinRoom, hroom] at h2
  rw [if_neg hfull, if_neg hst] at h2
  simp only [htid, hfind] at h2
  simp only [StoreServer.admitPlayer] at h2
  have h2' := Option.some.inj h2
  subst h2'
  dsimp only
  have hlen : (room.players ++ [player]).length = room.players.length + 1 := by simp
  refine ⟨by simp, ?_⟩
  by_cases hc : 2 ≤ (room.players ++ [player]).length ∧
      min room.maxPlayers 100 ≤ 10 * (room.players ++ [player]).length
  · rw [if_pos hc]
    rw [hlen] at hc
    constructor
    · intro _
      refine ⟨hc.1, ?_⟩
      have hq := (scaled_threshold_iff room.maxPlayers (room.players.length + 1)).mp hc.2
      push_cast at hq ⊢
      exact hq
    · intro _
      rfl
  · rw [if_neg hc]
    rw [hlen] at hc
    constructor
    · intro hstat
      rw [hwait] at hstat
      exact absurd hstat (by decide)
    · intro hcond
      exfalso
      apply hc
      refine ⟨hcond.1,
        (scaled_threshold_iff room.maxPlayers (room.players.length + 1)).mpr ?_⟩
      have h' := hcond.2
      push_cast at h' ⊢
      exact h'

/-- The room stored by the C5 fixture join, extracted from the result. -/
def c5After : StoreServer.GameRoom :=
  ((StoreServer.joinRoom "r1" c5P2 c5Store).1.room).getD c5Room

/-- Witness for C5's amended theorem at the concrete fixtures. -/
theorem c5_autostart_condition_witness :
    c5After.players.length = c5Room.players.length + 1 ∧
    (c5After.status = StoreServer.RoomStatus.starting ↔
      (2 ≤ c5Room.players.length + 1 ∧
       min ((c5Room.maxPlayers : ℚ) / 10) 10 ≤ (c5Room.players.length + 1 : ℚ))) :=
  c5_autostart_condition c5Store "r1" c5P2 c5Room rfl rfl (by decide) rfl (by decide)
    c5After (by decide)

/-! ### Claim C7: join failure modes -/

/-- Concrete fixture for C7: a full store-backed room (capacity 1). -/
def c7RoomFull : StoreServer.GameRoom :=
  { id := "full"
    stake := 10
    players := [{ id := "f1", name := "F1", telegramId := none, joinedAt := 0 }]
    maxPlayers := 1
    status := StoreServer.RoomStatus.waiting
    prize := 10
    createdAt := 0
    gameStartTime := none
    activeGames := some 0
    hasBonus := true
    calledNumbers := []
    currentNumber := none }

/-- Concrete fixture for C7: an active (not joinable) store-backed room. -/
def c7RoomAct : StoreServer.GameRoom :=
  { c7RoomFull with id := "act", maxPlayers := 100, status := StoreServer.RoomStatus.active }

/-- Concrete fixture for C7: an open waiting store-backed room. -/
def c7RoomOk : StoreServer.GameRoom :=
  { c7RoomFull with id := "ok", maxPlayers := 100, players := [], prize := 0 }

/-- Concrete fixture for C7: the store holding the three rooms above. -/
def c7StoreB : StoreServer.Store :=
  { rooms := [("full", c7RoomFull), ("act", c7RoomAct), ("ok", c7RoomOk)]
    sessions := []
    boardSelections := []
    games := []
    activeGameIntervals := [] }

/-- Concrete fixture for C7: a fresh guest. -/
def c7P : StoreServer.Player := { id := "z", name := "Z", telegramId := none, joinedAt := 0 }

/-- Concrete fixture for C7: an active in-memory room with one member, plus a
registered player who is not a member. -/
def c7State : MemServer.ServerState :=
  { rooms := [(1, { MemServer.initialRoom 1 10 none with
      status := MemServer.RoomStatus.active, connectedPlayers := ["a"],
      players := 1, prize := 10 })],
    players := [("a", { id := "a", name := "A", currentRoom := some 1 }),
                ("b", { id := "b", name := "B", currentRoom := none })] }

/-- Claim C7, counterexample: in the in-memory variant a join into a room
whose status is `active` (not waiting) succeeds and changes the membership —
there is no capacity or joinability check at all, contradicting "fails ...
exactly when ... the room's status is not waiting" and "a failed join leaves
the room's membership unchanged" (the join is not failed at all). -/
theorem c7_counterexample :
    (aget 1 c7State.rooms).map MemServer.GameRoom.status =
      some MemServer.RoomStatus.active ∧
    (MemServer.joinRoom "b" 1 c7State).1 = true ∧
    (aget 1 (MemServer.joinRoom "b" 1 c7State).2.rooms).map
      MemServer.GameRoom.connectedPlayers = some ["a", "b"] :=
  ⟨by decide, by decide, by decide⟩

/-- Claim C7 (amended): the store-backed `joinRoom` fails with a structured
result exactly when the room is missing (`Room not found`), at capacity
(`Room is full`), or not `waiting` (`Game already started`), each failure
leaving the store unchanged, and succeeds otherwise; the in-memory `joinRoom`
has no such checks — whenever the room and the player are registered it
returns success, even for a full or non-waiting room. -/
theorem c7_join_failure_modes :
    (∀ (st : StoreServer.Store) (rid : String) (p : StoreServer.Player),
      aget rid st.rooms = none →
      StoreServer.joinRoom rid p st =
        ({ success := false, room := none, message := some "Room not found" }, st)) ∧
    (∀ (st : StoreServer.Store) (rid : String) (p : StoreServer.Player)
        (room : StoreServer.GameRoom),
      aget rid st.rooms = some room →
      room.maxPlayers ≤ room.players.length →
      StoreServer.joinRoom rid p st =
        ({ success := false, room := none, message := some "Room is full" }, st)) ∧
    (∀ (st : StoreServer.Store) (rid : String) (p : StoreServer.Player)
        (room : StoreServer.GameRoom),
      aget rid st.rooms = some room →
      ¬ room.maxPlayers ≤ room.players.length →
      room.status ≠ StoreServer.RoomStatus.waiting →
      StoreServer.joinRoom rid p st =
        ({ success := false, room := none, message := some "Game already started" }, st)) ∧
    (∀ (st : StoreServer.Store) (rid : String) (p : StoreServer.Player)
        (room : StoreServer.GameRoom),
      aget rid st.rooms = some room →
      ¬ room.maxPlayers ≤ room.players.length →
      room.status = StoreServer.RoomStatus.waiting →
      (StoreServer.joinRoom rid p st).1.success = true) ∧
    (∀ (s : MemServer.ServerState) (pid : String) (rid : Nat)
        (room : MemServer.GameRoom) (player : MemServer.Player),
      aget rid s.rooms = some room →
      aget pid s.players = some player →
      (MemServer.joinRoom pid rid s).1 = true) := by
  refine ⟨?_, ?_, ?_, ?_, ?_⟩
  · intro st rid p h
    simp [StoreServer.joinRoom, h]
  · intro st rid p room hroom hfull
    simp [StoreServer.joinRoom, hroom, hfull]
  · intro st rid p room hroom hfull hst
    simp [StoreServer.joinRoom, hroom, hfull, hst]
  · intro st rid p room hroom hfull hwait
    have hst : ¬ room.status ≠ StoreServer.RoomStatus.waiting := by simp [hwait]
    cases htid : p.telegramId with
    | some tid =>
      cases hfind : room.players.find? (fun q => decide (q.telegramId = some tid)) with
      | some existing =>
        by_cases hex : existing.id ≠ p.id
        · simp only [StoreServer.joinRoom, hroom]
          rw [if_neg hfull, if_neg hst]
          simp only [htid, hfind]
          rw [if_pos hex]
          rfl
        · simp only [StoreServer.joinRoom, hroom]
          rw [if_neg hfull, if_neg hst]
          simp only [htid, hfind]
          rw [if_neg hex]
          rfl
      | none =>
        simp only [StoreServer.joinRoom, hroom]
        rw [if_neg hfull, if_neg hst]
        simp only [htid, hfind]
        rfl
    | none =>
      cases hfind : room.players.find? (fun q => decide (q.id = p.id)) with
      | some q =>
        simp only [StoreServer.joinRoom, hroom]
        rw [if_neg hfull, if_neg hst]
        simp only [htid, hfind]
      | none =>
        simp only [StoreServer.joinRoom, hroom]
        rw [if_neg hfull, if_neg hst]
        simp only [htid, hfind]
        rfl
  · intro s pid rid room player hroom hplayer
    simp only [MemServer.joinRoom, hroom, hplayer]
    by_cases hmem : pid ∈ room.connectedPlayers
    · rw [if_pos hmem]
    · rw [if_neg hmem]

/-- Witness for C7's amended theorem at the concrete fixtures. -/
theorem c7_join_failure_modes_witness :
    (StoreServer.joinRoom "nope" c7P c7StoreB =
      ({ success := false, room := none, message := some "Room not found" }, c7StoreB)) ∧
    (StoreServer.joinRoom "full" c7P c7StoreB =
      ({ success := false, room := none, message := some "Room is full" }, c7StoreB)) ∧
    (StoreServer.joinRoom "act" c7P c7StoreB =
      ({ success := false, room := none, message := some "Game already started" }, c7StoreB)) ∧
    ((StoreServer.joinRoom "ok" c7P c7StoreB).1.success = true) ∧
    ((MemServer.joinRoom "b" 1 c7State).1 = true) :=
  ⟨c7_join_failure_modes.1 c7StoreB "nope" c7P rfl,
   c7_join_failure_modes.2.1 c7StoreB "full" c7P c7RoomFull rfl (by decide),
   c7_join_failure_modes.2.2.1 c7StoreB "act" c7P c7RoomAct rfl (by decide) (by decide),
   c7_join_failure_modes.2.2.2.1 c7StoreB "ok" c7P c7RoomOk rfl (by decide) rfl,
   c7_join_failure_modes.2.2.2.2 c7State "b" 1
     { MemServer.initialRoom 1 10 none with
       status := MemServer.RoomStatus.active, connectedPlayers := ["a"],
       players := 1, prize := 10 }
     { id := "b", name := "B", currentRoom := none } rfl rfl⟩

/-! ### Claims C6 and C10: board-selection arbitration -/

theorem aget_mem {α β : Type} [DecidableEq α] {k : α} {v : β} {l : List (α × β)}
    (h : aget k l = some v) : (k, v) ∈ l := by
  induction l with
  | nil => simp [aget] at h
  | cons e rest ih =>
    obtain ⟨k1, v1⟩ := e
    by_cases he : k1 = k
    · subst he
      have hv : v1 = v := by simpa [aget] using h
      subst hv
      exact List.mem_cons_self _ _
    · have h' : aget k rest = some v := by simpa [aget, he] using h
      exact List.mem_cons_of_mem _ (ih h')

theorem aget_none_not_mem {α β : Type} [DecidableEq α] {k : α} {l : List (α × β)}
    (h : aget k l = none) : k ∉ l.map Prod.fst := by
  induction l with
  | nil => simp
  | cons e rest ih =>
    by_cases he : e.1 = k
    · simp [aget, he] at h
    · have h' : aget k rest = none := by simpa [aget, he] using h
      simp only [List.map_cons, List.mem_cons]
      push_neg
      exact ⟨fun hk => he hk.symm, ih h'⟩

theorem aset_append_of_not_mem {α β : Type} [DecidableEq α] {k : α} (v : β)
    {l : List (α × β)} (h : k ∉ l.map Prod.fst) : aset k v l = l ++ [(k, v)] := by
  induction l with
  | nil => simp [aset]
  | cons e rest ih =>
    simp only [List.map_cons, List.mem_cons] at h
    push_neg at h
    have he : ¬ e.1 = k := fun hh => h.1 hh.symm
    simp [aset, he, ih h.2]

theorem removeFirstBoard_sublist (pid : String) (bid : Nat) (l : List (Nat × String)) :
    (MemServer.removeFirstBoard pid bid l).Sublist l := by
  induction l with
  | nil => simp [MemServer.removeFirstBoard]
  | cons e rest ih =>
    by_cases h : e.2 = pid ∧ e.1 ≠ bid
    · have hrw : MemServer.removeFirstBoard pid bid (e :: rest) = rest := by
        simp [MemServer.removeFirstBoard, h]
      rw [hrw]
      exact List.sublist_cons_self e rest
    · have hrw : MemServer.removeFirstBoard pid bid (e :: rest) =
          e :: MemServer.removeFirstBoard pid bid rest := by
        simp [MemServer.removeFirstBoard, h]
      rw [hrw]
      exact List.Sublist.cons₂ e ih

/-- When no entry belongs to the player under a different board, the
`selectBoard` release loop is the identity. -/
theorem removeFirstBoard_eq_self {pid : String} {bid : Nat} {l : List (Nat × String)}
    (h : ∀ e ∈ l, ¬(e.2 = pid ∧ e.1 ≠ bid)) :
    MemServer.removeFirstBoard pid bid l = l := by
  induction l with
  | nil => rfl
  | cons e rest ih =>
    have he := h e (List.mem_cons_self e rest)
    have hrw : MemServer.removeFirstBoard pid bid (e :: rest) =
        e :: MemServer.removeFirstBoard pid bid rest := by
      simp [MemServer.removeFirstBoard, he]
    rw [hrw, ih (fun e' he' => h e' (List.mem_cons_of_mem _ he'))]

/-- With duplicate-free values and the board held by nobody, the release loop
removes every selection the player held. -/
theorem not_mem_snd_removeFirstBoard {pid : String} {bid : Nat} {l : List (Nat × String)}
    (hnd : (l.map Prod.snd).Nodup) (hkey : bid ∉ l.map Prod.fst) :
    pid ∉ (MemServer.removeFirstBoard pid bid l).map Prod.snd := by
  induction l with
  | nil => simp [MemServer.removeFirstBoard]
  | cons e rest ih =>
    simp only [List.map_cons, List.nodup_cons] at hnd
    simp only [List.map_cons, List.mem_cons] at hkey
    push_neg at hkey
    obtain ⟨hk1, hk2⟩ := hkey
    by_cases h : e.2 = pid ∧ e.1 ≠ bid
    · have hrw : MemServer.removeFirstBoard pid bid (e :: rest) = rest := by
        simp [MemServer.removeFirstBoard, h]
      rw [hrw]
      exact h.1 ▸ hnd.1
    · have hrw : MemServer.removeFirstBoard pid bid (e :: rest) =
          e :: MemServer.removeFirstBoard pid bid rest := by
        simp [MemServer.removeFirstBoard, h]
      rw [hrw]
      simp only [List.map_cons, List.mem_cons]
      push_neg
      refine ⟨?_, ih hnd.2 hk2⟩
      intro hpe
      exact h ⟨hpe.symm, fun hb => hk1 hb.symm⟩

/-- With duplicate-free values, an entry for the player must sit at the
board recorded for it. -/
theorem no_other_entry_of_snd_nodup {l : List (Nat × String)} {bid : Nat} {pid : String}
    (hnd : (l.map Prod.snd).Nodup) (hb : aget bid l = some pid) :
    ∀ e ∈ l, ¬(e.2 = pid ∧ e.1 ≠ bid) := by
  intro e he
  rintro ⟨h2, h1⟩
  have hmem : (bid, pid) ∈ l := aget_mem hb
  have heq : e = (bid, pid) := List.inj_on_of_nodup_map hnd he hmem (by simp [h2])
  exact h1 (by rw [heq])

/-- The board-selection invariant of claim C6: each board held by at most one
player, each player holding at most one board. -/
def boardInv (l : List (Nat × String)) : Prop :=
  (l.map Prod.fst).Nodup ∧ (l.map Prod.snd).Nodup

/-- The selection map produced by a conflict-free `selectBoard`. -/
def selectBoardMap (pid : String) (bid : Nat) (l : List (Nat × String)) :
    List (Nat × String) :=
  aset bid pid (MemServer.removeFirstBoard pid bid l)

/-- A conflict-free selection preserves `boardInv`. -/
theorem boardInv_selectBoardMap {pid : String} {bid : Nat} {l : List (Nat × String)}
    (hinv : boardInv l) (hfree : aget bid l = none ∨ aget bid l = some pid) :
    boardInv (selectBoardMap pid bid l) := by
  obtain ⟨hfst, hsnd⟩ := hinv
  cases hfree with
  | inl hnone =>
    have hkeys : bid ∉ l.map Prod.fst := aget_none_not_mem hnone
    have hsubf := List.Sublist.map Prod.fst (removeFirstBoard_sublist pid bid l)
    have hsubs := List.Sublist.map Prod.snd (removeFirstBoard_sublist pid bid l)
    have hkeys' : bid ∉ (MemServer.removeFirstBoard pid bid l).map Prod.fst :=
      fun hm => hkeys (hsubf.subset hm)
    have happ : selectBoardMap pid bid l =
        MemServer.removeFirstBoard pid bid l ++ [(bid, pid)] :=
      aset_append_of_not_mem pid hkeys'
    rw [boardInv, happ]
    constructor
    · rw [List.map_append, List.nodup_append]
      refine ⟨hsubf.nodup hfst, by simp, ?_⟩
      intro x hx hx1
      simp only [List.map_cons, List.map_nil, List.mem_singleton] at hx1
      subst hx1
      exact hkeys' hx
    · rw [List.map_append, List.nodup_append]
      refine ⟨hsubs.nodup hsnd, by simp, ?_⟩
      intro x hx hx1
      simp only [List.map_cons, List.map_nil, List.mem_singleton] at hx1
      subst hx1
      exact not_mem_snd_removeFirstBoard hsnd hkeys hx
  | inr hself =>
    have hrem : MemServer.removeFirstBoard pid bid l = l :=
      removeFirstBoard_eq_self (no_other_entry_of_snd_nodup hsnd hself)
    have hset : aset bid pid l = l := aset_aget_self hself
    rw [selectBoardMap, hrem, hset]
    exact ⟨hfst, hsnd⟩

/-- Concrete fixture for C6/C10: a room where player `a` holds board 7 and
player `b` holds board 9. -/
def c6Room : MemServer.GameRoom :=
  { MemServer.initialRoom 1 10 none with
    connectedPlayers := ["a", "b"],
    players := 2,
    selectedBoards := [(7, "a"), (9, "b")] }

/-- Concrete fixture for C6/C10: the in-memory server holding `c6Room`. -/
def c6State : MemServer.ServerState :=
  { rooms := [(1, c6Room)],
    players := [("a", { id := "a", name := "A", currentRoom := some 1 }),
                ("b", { id := "b", name := "B", currentRoom := some 1 })] }

/-- Claim C6 (confirmed): `selectBoard` rejects when another player holds the
requested board (leaving state unchanged); otherwise it succeeds, first
releasing the selecting player's previous board and then recording the new
claim; and the one-board-per-player / one-player-per-board invariant is
preserved by the new selection map. -/
theorem c6_board_arbitration :
    (∀ (s : MemServer.ServerState) (pid q : String) (rid bid : Nat)
        (room : MemServer.GameRoom) (player : MemServer.Player),
      aget rid s.rooms = some room →
      aget pid s.players = some player →
      aget bid room.selectedBoards = some q →
      q ≠ pid →
      MemServer.selectBoard pid rid bid s = (false, s)) ∧
    (∀ (s : MemServer.ServerState) (pid : String) (rid bid : Nat)
        (room : MemServer.GameRoom) (player : MemServer.Player),
      aget rid s.rooms = some room →
      aget pid s.players = some player →
      (aget bid room.selectedBoards = none ∨ aget bid room.selectedBoards = some pid) →
      MemServer.selectBoard pid rid bid s =
        (true, { s with rooms := aset rid { room with selectedBoards := selectBoardMap pid bid room.selectedBoards } s.rooms }) ∧
      (boardInv room.selectedBoards →
        boardInv (selectBoardMap pid bid room.selectedBoards))) := by
  constructor
  · intro s pid q rid bid room player hroom hplayer hb hq
    simp [MemServer.selectBoard, hroom, hplayer, MemServer.boardTakenByOther, hb, hq]
  · intro s pid rid bid room player hroom hplayer hfree
    have hcond : MemServer.boardTakenByOther pid (aget bid room.selectedBoards) = false := by
      cases hfree with
      | inl h => rw [h]; rfl
      | inr h => rw [h]; simp [MemServer.boardTakenByOther]
    constructor
    · simp [MemServer.selectBoard, hroom, hplayer, hcond, selectBoardMap]
    · intro hinv
      exact boardInv_selectBoardMap hinv hfree

/-- Witness for C6's theorem at the concrete fixtures: `b` is refused board
7 (held by `a`), while `a` moving from board 7 to board 12 succeeds and
keeps the invariant. -/
theorem c6_board_arbitration_witness :
    (MemServer.selectBoard "b" 1 7 c6State = (false, c6State)) ∧
    (MemServer.selectBoard "a" 1 12 c6State =
      (true, { c6State with rooms := aset 1 { c6Room with selectedBoards := selectBoardMap "a" 12 c6Room.selectedBoards } c6State.rooms }) ∧
      (boardInv c6Room.selectedBoards →
        boardInv (selectBoardMap "a" 12 c6Room.selectedBoards))) :=
  ⟨c6_board_arbitration.1 c6State "b" "a" 1 7 c6Room
      { id := "b", name := "B", currentRoom := some 1 } rfl rfl rfl (by decide),
   c6_board_arbitration.2 c6State "a" 1 12 c6Room
      { id := "a", name := "A", currentRoom := some 1 } rfl rfl (Or.inl rfl)⟩

/-- Claim C10 (confirmed): when the selecting player already holds the very
board requested (and, per the C6 invariant, holds no other board), the
selection succeeds and the whole server state is unchanged. -/
theorem c10_reselect_own_board :
    ∀ (s : MemServer.ServerState) (pid : String) (rid bid : Nat)
      (room : MemServer.GameRoom) (player : MemServer.Player),
      aget rid s.rooms = some room →
      aget pid s.players = some player →
      aget bid room.selectedBoards = some pid →
      (room.selectedBoards.map Prod.snd).Nodup →
      MemServer.selectBoard pid rid bid s = (true, s) := by
  intro s pid rid bid room player hroom hplayer hb hsnd
  have hcond : MemServer.boardTakenByOther pid (aget bid room.selectedBoards) = false := by
    rw [hb]
    simp [MemServer.boardTakenByOther]
  have hrem : MemServer.removeFirstBoard pid bid room.selectedBoards = room.selectedBoards :=
    removeFirstBoard_eq_self (no_other_entry_of_snd_nodup hsnd hb)
  have hset : aset bid pid room.selectedBoards = room.selectedBoards := aset_aget_self hb
  simp only [MemServer.selectBoard, hroom, hplayer, hcond, Bool.false_eq_true, if_false]
  rw [hrem, hset]
  have hroomEta : ({ room with selectedBoards := room.selectedBoards } : MemServer.GameRoom)
      = room := rfl
  rw [hroomEta, aset_aget_self hroom]

/-- Witness for C10's theorem: `a` re-selects board 7, which it holds. -/
theorem c10_reselect_own_board_witness :
    MemServer.selectBoard "a" 1 7 c6State = (true, c6State) :=
  c10_reselect_own_board c6State "a" 1 7 c6Room
    { id := "a", name := "A", currentRoom := some 1 } rfl rfl rfl (by decide)

/-! ### Claim C9: the called-numbers invariant -/

/-- The per-room invariant of claim C9: `calledNumbers` duplicate-free and
within `1..75`, and `currentNumber` absent or the most recently appended
called number. -/
def calledInv (r : MemServer.GameRoom) : Prop :=
  r.calledNumbers.Nodup ∧
  (∀ n ∈ r.calledNumbers, 1 ≤ n ∧ n ≤ 75) ∧
  (r.currentNumber = none ∨ r.currentNumber = r.calledNumbers.getLast?)

/-- `calledInv` for every room of a server state. -/
def StateInv (s : MemServer.ServerState) : Prop :=
  ∀ rid room, aget rid s.rooms = some room → calledInv room

theorem aget_aset_cases {α β : Type} [DecidableEq α] {k k' : α} {v : β} {l : List (α × β)}
    {w : β} (h : aget k' (aset k v l) = some w) : w = v ∨ aget k' l = some w := by
  by_cases hk : k' = k
  · subst hk
    rw [aget_aset_self] at h
    exact Or.inl (Option.some.inj h).symm
  · rw [aget_aset_ne _ _ hk] at h
    exact Or.inr h

/-- A room transformation that keeps `calledNumbers` and `currentNumber`
keeps `calledInv`. -/
theorem calledInv_of_fields {r r' : MemServer.GameRoom} (h : calledInv r)
    (hc : r'.calledNumbers = r.calledNumbers) (hn : r'.currentNumber = r.currentNumber) :
    calledInv r' := by
  dsimp only [calledInv] at h ⊢
  rw [hc, hn]
  exact h

/-- A room with cleared game fields satisfies `calledInv`. -/
theorem calledInv_cleared {r' : MemServer.GameRoom} (hc : r'.calledNumbers = [])
    (hn : r'.currentNumber = none) : calledInv r' := by
  dsimp only [calledInv]
  rw [hc, hn]
  simp

/-- Storing a `calledInv` room (and arbitrary players) preserves `StateInv`. -/
theorem stateInv_mk {s : MemServer.ServerState} (hs : StateInv s) {rid : Nat}
    {room1 : MemServer.GameRoom} (h1 : calledInv room1)
    (pl : List (String × MemServer.Player)) :
    StateInv { rooms := aset rid room1 s.rooms, players := pl } := by
  intro a b hab
  rcases aget_aset_cases hab with rfl | h2
  · exact h1
  · exact hs a b h2

/-- Storing a `calledInv` room preserves `StateInv`. -/
theorem stateInv_aset {s : MemServer.ServerState} (hs : StateInv s) {rid : Nat}
    {room1 : MemServer.GameRoom} (h1 : calledInv room1) :
    StateInv { s with rooms := aset rid room1 s.rooms } :=
  stateInv_mk hs h1 s.players

/-- Changing only the players table preserves `StateInv`. -/
theorem stateInv_players {s : MemServer.ServerState} (hs : StateInv s)
    (pl : List (String × MemServer.Player)) : StateInv { s with players := pl } := by
  intro a b hab
  exact hs a b hab

theorem stopNumberCalling_inv {s : MemServer.ServerState} (hs : StateInv s) (rid : Nat) :
    StateInv (MemServer.stopNumberCalling rid s) := by
  cases hroom : aget rid s.rooms with
  | none =>
    have h : MemServer.stopNumberCalling rid s = s := by
      simp [MemServer.stopNumberCalling, hroom]
    rw [h]; exact hs
  | some room =>
    have h : MemServer.stopNumberCalling rid s =
        { s with rooms := aset rid { room with gameInterval := false } s.rooms } := by
      simp [MemServer.stopNumberCalling, hroom]
    rw [h]
    apply stateInv_aset hs
    exact calledInv_of_fields (hs rid room hroom) rfl rfl

theorem resetRoomState_inv {s : MemServer.ServerState} (hs : StateInv s) (rid : Nat) :
    StateInv (MemServer.resetRoomState rid s) := by
  cases hroom : aget rid s.rooms with
  | none =>
    have h : MemServer.resetRoomState rid s = s := by
      simp [MemServer.resetRoomState, hroom]
    rw [h]; exact hs
  | some room =>
    have h : MemServer.resetRoomState rid s =
        { s with rooms := aset rid { room with
            gameInterval := false,
            status := MemServer.RoomStatus.waiting,
            calledNumbers := [],
            currentNumber := none,
            prize := 0,
            players := 0,
            winner := none,
            selectedBoards := [],
            connectedPlayers := [] } s.rooms } := by
      simp [MemServer.resetRoomState, hroom]
    rw [h]
    apply stateInv_aset hs
    exact calledInv_cleared rfl rfl

theorem leaveRoom_inv {s : MemServer.ServerState} (hs : StateInv s) (pid : String)
    (rid : Nat) : StateInv (MemServer.leaveRoom pid rid s).2 := by
  cases hroom : aget rid s.rooms with
  | none =>
    have h : (MemServer.leaveRoom pid rid s).2 = s := by
      simp [MemServer.leaveRoom, hroom]
    rw [h]; exact hs
  | some room =>
    cases hplayer : aget pid s.players with
    | none =>
      have h : (MemServer.leaveRoom pid rid s).2 = s := by
        simp [MemServer.leaveRoom, hroom, hplayer]
      rw [h]; exact hs
    | some player =>
      simp only [MemServer.leaveRoom, hroom, hplayer]
      dsimp only
      split_ifs with hcr h0 h0
      · apply stateInv_players
        apply resetRoomState_inv
        apply stateInv_aset hs
        exact calledInv_of_fields (hs rid room hroom) rfl rfl
      · apply stateInv_players
        apply stateInv_aset hs
        exact calledInv_of_fields (hs rid room hroom) rfl rfl
      · apply resetRoomState_inv
        apply stateInv_aset hs
        exact calledInv_of_fields (hs rid room hroom) rfl rfl
      · apply stateInv_aset hs
        exact calledInv_of_fields (hs rid room hroom) rfl rfl

theorem joinRoom_inv {s : MemServer.ServerState} (hs : StateInv s) (pid : String)
    (rid : Nat) : StateInv (MemServer.joinRoom pid rid s).2 := by
  cases hroom : aget rid s.rooms with
  | none =>
    have h : (MemServer.joinRoom pid rid s).2 = s := by
      simp [MemServer.joinRoom, hroom]
    rw [h]; exact hs
  | some room =>
    cases hplayer : aget pid s.players with
    | none =>
      have h : (MemServer.joinRoom pid rid s).2 = s := by
        simp [MemServer.joinRoom, hroom, hplayer]
      rw [h]; exact hs
    | some player =>
      by_cases hmem : pid ∈ room.connectedPlayers
      · have h : (MemServer.joinRoom pid rid s).2 = s := by
          simp [MemServer.joinRoom, hroom, hplayer, hmem]
        rw [h]; exact hs
      · cases hcr : player.currentRoom with
        | none =>
          simp only [MemServer.joinRoom, hroom, hplayer, hcr]
          rw [if_neg hmem]
          dsimp only
          apply stateInv_mk hs
          exact calledInv_of_fields (hs rid room hroom) rfl rfl
        | some r =>
          by_cases hr : r ≠ rid
          · simp only [MemServer.joinRoom, hroom, hplayer, hcr]
            rw [if_neg hmem]
            dsimp only
            rw [if_pos hr]
            apply stateInv_mk (leaveRoom_inv hs pid r)
            exact calledInv_of_fields (hs rid room hroom) rfl rfl
          · simp only [MemServer.joinRoom, hroom, hplayer, hcr]
            rw [if_neg hmem]
            dsimp only
            rw [if_neg hr]
            apply stateInv_mk hs
            exact calledInv_of_fields (hs rid room hroom) rfl rfl

theorem addPlayer_inv {s : MemServer.ServerState} (hs : StateInv s)
    (pid pname : String) : StateInv (MemServer.addPlayer pid pname s) :=
  stateInv_players hs _

theorem removePlayer_inv {s : MemServer.ServerState} (hs : StateInv s) (pid : String) :
    StateInv (MemServer.removePlayer pid s) := by
  cases hplayer : aget pid s.players with
  | none =>
    have h : MemServer.removePlayer pid s = s := by
      simp [MemServer.removePlayer, hplayer]
    rw [h]; exact hs
  | some player =>
    cases hcr : player.currentRoom with
    | none =>
      simp only [MemServer.removePlayer, hplayer, hcr]
      exact stateInv_players hs _
    | some r =>
      simp only [MemServer.removePlayer, hplayer, hcr]
      exact stateInv_players (leaveRoom_inv hs pid r) _

theorem selectBoard_inv {s : MemServer.ServerState} (hs : StateInv s) (pid : String)
    (rid bid : Nat) : StateInv (MemServer.selectBoard pid rid bid s).2 := by
  cases hroom : aget rid s.rooms with
  | none =>
    have h : (MemServer.selectBoard pid rid bid s).2 = s := by
      simp [MemServer.selectBoard, hroom]
    rw [h]; exact hs
  | some room =>
    cases hplayer : aget pid s.players with
    | none =>
      have h : (MemServer.selectBoard pid rid bid s).2 = s := by
        simp [MemServer.selectBoard, hroom, hplayer]
      rw [h]; exact hs
    | some player =>
      by_cases ht : MemServer.boardTakenByOther pid (aget bid room.selectedBoards) = true
      · have h : (MemServer.selectBoard pid rid bid s).2 = s := by
          simp [MemServer.selectBoard, hroom, hplayer, ht]
        rw [h]; exact hs
      · simp only [MemServer.selectBoard, hroom, hplayer]
        rw [if_neg ht]
        dsimp only
        apply stateInv_aset hs
        exact calledInv_of_fields (hs rid room hroom) rfl rfl

theorem startGameInRoom_inv {s : MemServer.ServerState} (hs : StateInv s)
    (rid now : Nat) : StateInv (MemServer.startGameInRoom rid now s).2 := by
  cases hroom : aget rid s.rooms with
  | none =>
    have h : (MemServer.startGameInRoom rid now s).2 = s := by
      simp [MemServer.startGameInRoom, hroom]
    rw [h]; exact hs
  | some room =>
    by_cases hw : room.status = MemServer.RoomStatus.waiting
    · simp only [MemServer.startGameInRoom, hroom]
      rw [if_pos hw]
      dsimp only
      apply stateInv_aset hs
      exact calledInv_cleared rfl rfl
    · have h : (MemServer.startGameInRoom rid now s).2 = s := by
        simp [MemServer.startGameInRoom, hroom, hw]
      rw [h]; exact hs

theorem callNextNumber_inv {s : MemServer.ServerState} (hs : StateInv s)
    (rid pick : Nat) : StateInv (MemServer.callNextNumber rid pick s) := by
  cases hroom : aget rid s.rooms with
  | none =>
    have h : MemServer.callNextNumber rid pick s = s := by
      simp [MemServer.callNextNumber, hroom]
    rw [h]; exact hs
  | some room =>
    by_cases hact : room.status = MemServer.RoomStatus.active
    · by_cases hex : (availableNumbers room.calledNumbers).length = 0
      · have h : MemServer.callNextNumber rid pick s = MemServer.resetRoomState rid s := by
          simp [MemServer.callNextNumber, hroom, hact, hex]
        rw [h]
        exact resetRoomState_inv hs rid
      · have hmem : (availableNumbers room.calledNumbers).getD
            (pick % (availableNumbers room.calledNumbers).length) 0 ∈
              availableNumbers room.calledNumbers :=
          getD_mem_of_lt (Nat.mod_lt _ (Nat.pos_of_ne_zero hex)) 0
        obtain ⟨⟨h1, h75⟩, hnotin⟩ := mem_availableNumbers hmem
        set n := (availableNumbers room.calledNumbers).getD
          (pick % (availableNumbers room.calledNumbers).length) 0 with hn
        have h : MemServer.callNextNumber rid pick s =
            { s with rooms := aset rid { room with calledNumbers := room.calledNumbers ++ [n], currentNumber := some n } s.rooms } := by
          simp only [MemServer.callNextNumber, hroom]
          rw [if_pos hact, if_neg hex]
        rw [h]
        apply stateInv_aset hs
        obtain ⟨hnd, hrange, _⟩ := hs rid room hroom
        refine ⟨?_, ?_, ?_⟩
        · dsimp only
          rw [List.nodup_append]
          refine ⟨hnd, List.nodup_singleton _, ?_⟩
          intro x hx hx1
          rw [List.mem_singleton] at hx1
          subst hx1
          exact hnotin hx
        · dsimp only
          intro m hm
          rcases List.mem_append.mp hm with hmm | hmm
          · exact hrange m hmm
          · rw [List.mem_singleton] at hmm
            subst hmm
            exact ⟨h1, h75⟩
        · right
          dsimp only
          rw [List.getLast?_concat]
    · have h : MemServer.callNextNumber rid pick s = s := by
        simp [MemServer.callNextNumber, hroom, hact]
      rw [h]; exact hs

theorem startNumberCalling_inv {s : MemServer.ServerState} (hs : StateInv s)
    (rid pick : Nat) : StateInv (MemServer.startNumberCalling rid pick s) := by
  cases hroom : aget rid s.rooms with
  | none =>
    have h : MemServer.startNumberCalling rid pick s = s := by
      simp [MemServer.startNumberCalling, hroom]
    rw [h]; exact hs
  | some room =>
    by_cases hact : room.status = MemServer.RoomStatus.active
    · have h : MemServer.startNumberCalling rid pick s = MemServer.callNextNumber rid pick
          { s with rooms := aset rid { room with gameInterval := true } s.rooms } := by
        simp [MemServer.startNumberCalling, hroom, hact]
      rw [h]
      apply callNextNumber_inv
      apply stateInv_aset hs
      exact calledInv_of_fields (hs rid room hroom) rfl rfl
    · have h : MemServer.startNumberCalling rid pick s = s := by
        simp [MemServer.startNumberCalling, hroom, hact]
      rw [h]; exact hs

theorem startingTimeoutFires_inv {s : MemServer.ServerState} (hs : StateInv s)
    (rid pick : Nat) : StateInv (MemServer.startingTimeoutFires rid pick s) := by
  cases hroom : aget rid s.rooms with
  | none =>
    have h : MemServer.startingTimeoutFires rid pick s = s := by
      simp [MemServer.startingTimeoutFires, hroom]
    rw [h]; exact hs
  | some room =>
    by_cases hst : room.status = MemServer.RoomStatus.starting
    · have h : MemServer.startingTimeoutFires rid pick s = MemServer.startNumberCalling rid pick
          { s with rooms := aset rid { room with status := MemServer.RoomStatus.active } s.rooms } := by
        simp [MemServer.startingTimeoutFires, hroom, hst]
      rw [h]
      apply startNumberCalling_inv
      apply stateInv_aset hs
      exact calledInv_of_fields (hs rid room hroom) rfl rfl
    · have h : MemServer.startingTimeoutFires rid pick s = s := by
        simp [MemServer.startingTimeoutFires, hroom, hst]
      rw [h]; exact hs

theorem handleBingoWin_inv {s : MemServer.ServerState} (hs : StateInv s) (rid : Nat)
    (pid : String) : StateInv (MemServer.handleBingoWin rid pid s).2 := by
  cases hroom : aget rid s.rooms with
  | none =>
    have h : (MemServer.handleBingoWin rid pid s).2 = s := by
      simp [MemServer.handleBingoWin, hroom]
    rw [h]; exact hs
  | some room =>
    cases hplayer : aget pid s.players with
    | none =>
      have h : (MemServer.handleBingoWin rid pid s).2 = s := by
        simp [MemServer.handleBingoWin, hroom, hplayer]
      rw [h]; exact hs
    | some player =>
      by_cases hover : room.status = MemServer.RoomStatus.game_over
      · have h : (MemServer.handleBingoWin rid pid s).2 = s := by
          simp [MemServer.handleBingoWin, hroom, hplayer, hover]
        rw [h]; exact hs
      · simp only [MemServer.handleBingoWin, hroom, hplayer]
        rw [if_neg hover]
        dsimp only
        apply stateInv_aset hs
        exact calledInv_of_fields (hs rid room hroom) rfl rfl

/-- Every operation of the in-memory server preserves the invariant. -/
theorem applyOp_inv (s : MemServer.ServerState) (hs : StateInv s) (op : MemServer.Op) :
    StateInv (MemServer.applyOp s op) := by
  cases op with
  | addPlayer pid pname => exact addPlayer_inv hs pid pname
  | removePlayer pid => exact removePlayer_inv hs pid
  | join pid rid => exact joinRoom_inv hs pid rid
  | leave pid rid => exact leaveRoom_inv hs pid rid
  | select pid rid bid => exact selectBoard_inv hs pid rid bid
  | startGame rid now => exact startGameInRoom_inv hs rid now
  | startingTimeout rid pick => exact startingTimeoutFires_inv hs rid pick
  | callTick rid pick => exact callNextNumber_inv hs rid pick
  | bingo rid pid => exact handleBingoWin_inv hs rid pid
  | resetTimeout rid => exact resetRoomState_inv hs rid
  | stopCalling rid => exact stopNumberCalling_inv hs rid

/-- The invariant holds of the four freshly initialised rooms. -/
theorem stateInv_initial : StateInv MemServer.initialState := by
  intro rid room h
  simp only [MemServer.initialState, aget] at h
  split_ifs at h
  all_goals
    first
      | exact Option.noConfusion h
      | (injection h with h; subst h; exact ⟨by decide, by decide, Or.inl (by decide)⟩)

/-- Claim C9 (confirmed): after any sequence of operations from the initial
state, every room's `calledNumbers` is duplicate-free and within `1..75`,
and `currentNumber` is absent or equal to the most recently appended called
number. -/
theorem c9_called_numbers_invariant :
    ∀ (ops : List MemServer.Op) (rid : Nat) (room : MemServer.GameRoom),
      aget rid (MemServer.run ops).rooms = some room →
      room.calledNumbers.Nodup ∧
      (∀ n ∈ room.calledNumbers, 1 ≤ n ∧ n ≤ 75) ∧
      (room.currentNumber = none ∨ room.currentNumber = room.calledNumbers.getLast?) := by
  have hfold : ∀ (l : List MemServer.Op) (s : MemServer.ServerState), StateInv s →
      StateInv (l.foldl MemServer.applyOp s) := by
    intro l
    induction l with
    | nil => intro s hs; exact hs
    | cons op rest ih => intro s hs; exact ih _ (applyOp_inv s hs op)
  intro ops rid room h
  exact hfold ops MemServer.initialState stateInv_initial rid room h

/-- A concrete trace for C9's witness: two players join room 1, the game is
force-started, the promotion fires, and three ticks are called. -/
def c9Ops : List MemServer.Op :=
  [MemServer.Op.addPlayer "a" "A", MemServer.Op.addPlayer "b" "B",
   MemServer.Op.join "a" 1, MemServer.Op.join "b" 1,
   MemServer.Op.startGame 1 5, MemServer.Op.startingTimeout 1 3,
   MemServer.Op.callTick 1 41, MemServer.Op.callTick 1 7]

/-- The room reached by `c9Ops`, extracted from the run. -/
def c9RoomAfter : MemServer.GameRoom :=
  (aget 1 (MemServer.run c9Ops).rooms).getD (MemServer.initialRoom 1 10 none)

/-- Witness for C9's theorem at the concrete trace. -/
theorem c9_called_numbers_invariant_witness :
    c9RoomAfter.calledNumbers.Nodup ∧
    (∀ n ∈ c9RoomAfter.calledNumbers, 1 ≤ n ∧ n ≤ 75) ∧
    (c9RoomAfter.currentNumber = none ∨
      c9RoomAfter.currentNumber = c9RoomAfter.calledNumbers.getLast?) :=
  c9_called_numbers_invariant c9Ops 1 c9RoomAfter (by decide)

/-! ### Claim C8: idempotent same-session rejoin -/

/-- Concrete fixture for C8: a Telegram-identified player. -/
def c8P : StoreServer.Player := { id := "s1", name := "T", telegramId := some 7, joinedAt := 0 }

/-- Concrete fixture for C8: a waiting room already containing `c8P`. -/
def c8Room : StoreServer.GameRoom :=
  { id := "r1"
    stake := 10
    players := [c8P]
    maxPlayers := 100
    status := StoreServer.RoomStatus.waiting
    prize := 10
    createdAt := 0
    gameStartTime := none
    activeGames := some 0
    hasBonus := true
    calledNumbers := []
    currentNumber := none }

/-- Concrete fixture for C8: the store holding `c8Room`, `c8P`'s session
already bound to it. -/
def c8Store : StoreServer.Store :=
  { rooms := [("r1", c8Room)]
    sessions := [("s1", "r1")]
    boardSelections := []
    games := []
    activeGameIntervals := [] }

/-- Concrete fixture for C8: a guest player. -/
def c8G : StoreServer.Player := { id := "g1", name := "G", telegramId := none, joinedAt := 0 }

/-- Concrete fixture for C8: a waiting room already containing the guest. -/
def c8RoomG : StoreServer.GameRoom := { c8Room with id := "r2", players := [c8G] }

/-- Concrete fixture for C8: the store holding `c8RoomG`. -/
def c8StoreG : StoreServer.Store :=
  { rooms := [("r2", c8RoomG)]
    sessions := [("g1", "r2")]
    boardSelections := []
    games := []
    activeGameIntervals := [] }

/-- Concrete fixture for C8: an in-memory room whose only member is `"a"`. -/
def c8StateA : MemServer.ServerState :=
  { rooms := [(1, { MemServer.initialRoom 1 10 none with
      connectedPlayers := ["a"], players := 1 })],
    players := [("a", { id := "a", name := "A", currentRoom := some 1 })] }

/-- Claim C8, evaluation at the failing input: when a Telegram-identified
player whose session id is already a member rejoins the same room, the
store-backed `joinRoom` takes the telegram branch, never hits the guest-path
same-session no-op, and pushes a second copy — the stored membership becomes
`["s1", "s1"]` and the prize doubles. The guest path and the in-memory
variant do implement the intended no-op. -/
theorem c8_same_session_rejoin :
    ((StoreServer.joinRoom "r1" c8P c8Store).1.success = true ∧
      (aget "r1" (StoreServer.joinRoom "r1" c8P c8Store).2.rooms).map
        (fun r => (r.players.map StoreServer.Player.id, r.prize)) =
        some (["s1", "s1"], 20)) ∧
    ((StoreServer.joinRoom "r2" c8G c8StoreG).1.message = some "Already in room" ∧
      (aget "r2" (StoreServer.joinRoom "r2" c8G c8StoreG).2.rooms).map
        (fun r => r.players.map StoreServer.Player.id) = some ["g1"]) ∧
    (MemServer.joinRoom "a" 1 c8StateA = (true, c8StateA)) :=
  ⟨⟨by decide, by decide⟩, ⟨by decide, by decide⟩, by decide⟩

/-- Witness for C1's amended theorem at the concrete fixtures. -/
theorem c1_exhaustion_path_witness :
    (aget "r1" (StoreServer.callNumberTick "r1" 0 c1Store).games =
        some { c1Game with gameStatus := StoreServer.GameStatus.finished } ∧
      "r1" ∉ (StoreServer.callNumberTick "r1" 0 c1Store).activeGameIntervals) ∧
    (∃ room2, aget 1 (MemServer.callNextNumber 1 0 c1State).rooms = some room2 ∧
      room2.status = MemServer.RoomStatus.waiting ∧
      room2.gameInterval = false ∧
      room2.calledNumbers = [] ∧
      room2.currentNumber = none) :=
  ⟨c1_exhaustion_path.1 c1Store "r1" 0 c1Game rfl rfl (by decide),
   c1_exhaustion_path.2 c1State 1 0 c1Room rfl rfl (by decide)⟩
